import Mathlib

/-!
# TruthBench — verification of the portfolio ledger, replay engine,
# decision parsing and scoring of `src/llm-service/src/truthbench`.

Shallow embedding conventions:
* Python `float` values (bankrolls, prices, averages) are modelled as `ℚ`;
  float rounding is not modelled.
* Python `int` is `ℤ` (quantities may be negative before validation);
  counters are `ℕ`.
* Python `dict` (insertion ordered) is an association list
  `List (String × α)`; assignment replaces in place, otherwise appends.
* `int(x)` (truncation towards zero) is `pyInt`.
-/

namespace TruthBench

/-- Python dict assignment `d[k] = v`: replace in place if the key is
present, otherwise append at the end (insertion order). -/
def dictInsert {α : Type} (d : List (String × α)) (k : String) (v : α) :
    List (String × α) :=
  if (d.lookup k).isSome then
    d.map (fun kv => if kv.1 = k then (k, v) else kv)
  else
    d ++ [(k, v)]

/-- Python `del d[k]`. -/
def dictErase {α : Type} (d : List (String × α)) (k : String) :
    List (String × α) :=
  d.filter (fun kv => kv.1 != k)

/-- Python `int(x)` on a real number: truncation towards zero. -/
def pyInt (q : ℚ) : ℤ := if 0 ≤ q then ⌊q⌋ else -⌊-q⌋

/-- Embeds `models.py` `Action`. -/
inductive Action where
  | buy_yes
  | buy_no
  | hold
  | sell_yes
  | sell_no
deriving DecidableEq, Repr

/-- Embeds `models.py` `TradingDecision`. -/
structure TradingDecision where
  model_id : String
  market_ticker : String
  timestamp : ℤ
  action : Action
  quantity : ℤ
  confidence : ℚ
  reasoning : String
  probability_yes : ℚ
deriving DecidableEq, Repr

/-- Embeds `models.py` `Position`; `side` is the Python string "yes"/"no". -/
structure Position where
  market_ticker : String
  side : String
  quantity : ℤ
  avg_price : ℚ
  entry_timestamp : ℤ
deriving DecidableEq, Repr

/-- One entry of `Portfolio.pnl_history` as written by
`PortfolioManager.record_snapshot` (portfolio.py). -/
structure Snapshot where
  timestamp : ℤ
  bankroll : ℚ
  total_value : ℚ
  positions : ℕ
deriving DecidableEq, Repr

/-- Embeds `models.py` `Portfolio`. -/
structure Portfolio where
  model_id : String
  model_name : String
  bankroll : ℚ
  initial_bankroll : ℚ
  positions : List (String × Position)
  pnl_history : List Snapshot
  decisions : List TradingDecision
  total_trades : ℕ
  winning_trades : ℕ
deriving DecidableEq, Repr

/-- Embeds `models.py` `Candlestick`. -/
structure Candlestick where
  timestamp : ℤ
  yes_bid : ℚ
  yes_ask : ℚ
  price_close : ℚ
  volume : ℤ
  open_interest : ℤ
deriving DecidableEq, Repr

/-- Embeds `models.py` `MarketState`. -/
structure MarketState where
  ticker : String
  title : String
  rules_primary : String
  rules_secondary : Option String
  current_timestamp : ℤ
  open_time : String
  close_time : String
  current_yes_bid : ℚ
  current_yes_ask : ℚ
  current_price : ℚ
  volume : ℤ
  open_interest : ℤ
  price_history : List Candlestick
  result : String
deriving DecidableEq, Repr

/-- Embeds `portfolio.py` `TradeExecution`. -/
structure TradeExecution where
  success : Bool
  model_id : String
  market_ticker : String
  action : Action
  quantity : ℤ
  price : ℚ
  cost : ℚ
  error : Option String
deriving DecidableEq, Repr

/-- Embeds `portfolio.py` `PortfolioManager._calculate_max_quantity`. -/
def calculate_max_quantity (maxPct : ℚ) (p : Portfolio) (price : ℚ) : ℤ :=
  if price ≤ 0 then 0
  else max 0 (pyInt (p.bankroll * maxPct / price))

/-- Embeds `portfolio.py` `execute_decision` lines 171-175: the price guard
`if price <= 0: price = 1` then `if price > 100: price = 99`. -/
def clampPrice (price : ℚ) : ℚ :=
  let price := if price ≤ 0 then 1 else price
  if 100 < price then 99 else price

/-- Embeds `portfolio.py` `execute_decision` lines 150-169: the raw execution
price chosen for each action (ask for yes-buys, `100 - bid` for no-buys,
bid for yes-sells, `100 - ask` for no-sells).  The `hold` case is the
source's unreachable `else: price = 50` fallback. -/
def raw_price (a : Action) (s : MarketState) : ℚ :=
  match a with
  | Action.buy_yes => s.current_yes_ask
  | Action.buy_no => 100 - s.current_yes_bid
  | Action.sell_yes => s.current_yes_bid
  | Action.sell_no => 100 - s.current_yes_ask
  | Action.hold => 50

/-- Embeds `portfolio.py` `execute_decision`, buy path (lines 177-260) for
`side ∈ {"yes", "no"}` with raw price `praw` (ask for yes, `100 - bid`
for no): clamp, cap to affordable quantity, fail on a zero cap,
otherwise pay, then merge / replace / create the position. -/
def execute_buy (maxPct : ℚ) (p : Portfolio) (d : TradingDecision)
    (side : String) (praw : ℚ) : Portfolio × TradeExecution :=
  let price := clampPrice praw
  let max_quantity := calculate_max_quantity maxPct p price
  let quantity := min d.quantity max_quantity
  if quantity ≤ 0 then
    (p, ⟨false, d.model_id, d.market_ticker, d.action, 0, price, 0,
      some "Insufficient bankroll"⟩)
  else
    let cost := (quantity : ℚ) * price
    let p1 := { p with bankroll := p.bankroll - cost }
    let fresh : Position := ⟨d.market_ticker, side, quantity, price, d.timestamp⟩
    let p2 :=
      match p1.positions.lookup d.market_ticker with
      | some pos =>
        if pos.side = side then
          -- merge with same-side position at volume-weighted price
          let total_cost := pos.avg_price * (pos.quantity : ℚ) + cost
          let newQ := pos.quantity + quantity
          let merged := dictInsert p1.positions d.market_ticker
            ({ pos with quantity := newQ, avg_price := total_cost / (newQ : ℚ) })
          { p1 with positions := merged }
        else
          -- opposite side: replace outright
          { p1 with positions := dictInsert p1.positions d.market_ticker fresh }
      | none =>
        { p1 with positions := dictInsert p1.positions d.market_ticker fresh }
    let p3 := { p2 with total_trades := p2.total_trades + 1 }
    (p3, ⟨true, d.model_id, d.market_ticker, d.action, quantity, price, cost,
      none⟩)

/-- Embeds `portfolio.py` `execute_decision`, sell path (lines 154-166 and
194-277) with raw price `praw` (bid for yes-sells, `100 - ask` for
no-sells): any position in the ticker passes the check (its side is not
compared against the action); quantity is capped to the held quantity. -/
def execute_sell (p : Portfolio) (d : TradingDecision) (praw : ℚ) :
    Portfolio × TradeExecution :=
  match p.positions.lookup d.market_ticker with
  | none =>
      (p, ⟨false, d.model_id, d.market_ticker, d.action, 0, 0, 0,
        some "No position to sell"⟩)
  | some pos =>
      let price := clampPrice praw
      let quantity := min d.quantity pos.quantity
      let cost := (quantity : ℚ) * price
      if 0 < quantity then
        let p1 := { p with bankroll := p.bankroll + (quantity : ℚ) * price }
        let p2 := if pos.avg_price < price then
            { p1 with winning_trades := p1.winning_trades + 1 }
          else p1
        let newQ := pos.quantity - quantity
        let reduced := dictInsert p2.positions d.market_ticker ({ pos with quantity := newQ })
        let p3 := if newQ ≤ 0 then
            { p2 with positions := dictErase p2.positions d.market_ticker }
          else
            { p2 with positions := reduced }
        let p4 := { p3 with total_trades := p3.total_trades + 1 }
        (p4, ⟨true, d.model_id, d.market_ticker, d.action, quantity, price,
          cost, none⟩)
      else
        (p, ⟨true, d.model_id, d.market_ticker, d.action, quantity, price,
          cost, none⟩)

/-- Embeds `portfolio.py` `PortfolioManager.execute_decision`, acting on the single
portfolio of `decision.model_id` (the manager-level lookup is
`pmExecute` below): record the decision, then dispatch on the action with
the raw price of `raw_price`. -/
def execute_decision (maxPct : ℚ) (p0 : Portfolio) (d : TradingDecision)
    (s : MarketState) : Portfolio × TradeExecution :=
  -- portfolio.decisions.append(decision)
  let p := { p0 with decisions := p0.decisions ++ [d] }
  match d.action with
  | Action.hold =>
      (p, ⟨true, d.model_id, d.market_ticker, d.action, 0, 0, 0, none⟩)
  | Action.buy_yes => execute_buy maxPct p d "yes" s.current_yes_ask
  | Action.buy_no => execute_buy maxPct p d "no" (100 - s.current_yes_bid)
  | Action.sell_yes => execute_sell p d s.current_yes_bid
  | Action.sell_no => execute_sell p d (100 - s.current_yes_ask)

/-- Embeds `portfolio.py` `PortfolioManager.execute_decision`: the manager-level
wrapper, selecting the portfolio of `decision.model_id`. -/
def pmExecute (maxPct : ℚ) (portfolios : List (String × Portfolio))
    (d : TradingDecision) (s : MarketState) :
    List (String × Portfolio) × TradeExecution :=
  match portfolios.lookup d.model_id with
  | none =>
      (portfolios, ⟨false, d.model_id, d.market_ticker, d.action, 0, 0, 0,
        some "Portfolio not found"⟩)
  | some p =>
      let r := execute_decision maxPct p d s
      (dictInsert portfolios d.model_id r.1, r.2)

/-- Embeds `portfolio.py` `PortfolioManager.settle_market`, restricted to a single
portfolio (the loop body); returns the updated portfolio and the P&L. -/
def settle_portfolio (p : Portfolio) (market_ticker result : String) :
    Portfolio × ℚ :=
  match p.positions.lookup market_ticker with
  | none => (p, 0)
  | some pos =>
      let settlement_value : ℚ :=
        if result = "yes" then (if pos.side = "yes" then 100 else 0)
        else (if pos.side = "no" then 100 else 0)
      let proceeds := (pos.quantity : ℚ) * settlement_value
      let cost_basis := (pos.quantity : ℚ) * pos.avg_price
      let pnl := proceeds - cost_basis
      let p1 := { p with bankroll := p.bankroll + proceeds }
      let p2 := if 0 < pnl then
          { p1 with winning_trades := p1.winning_trades + 1 }
        else p1
      let p3 := { p2 with positions := dictErase p2.positions market_ticker }
      (p3, pnl)

/-- Embeds `portfolio.py` `PortfolioManager.settle_market`: settle every portfolio
in order, returning the new portfolios and the P&L per model id. -/
def settle_market (portfolios : List (String × Portfolio))
    (market_ticker result : String) :
    List (String × Portfolio) × List (String × ℚ) :=
  (portfolios.map (fun kv => (kv.1, (settle_portfolio kv.2 market_ticker result).1)),
   portfolios.map (fun kv => (kv.1, (settle_portfolio kv.2 market_ticker result).2)))

/-- Embeds `portfolio.py` `PortfolioManager.record_snapshot` for one portfolio:
total value marks every open position at a neutral 50¢. -/
def record_snapshot (p : Portfolio) (timestamp : ℤ) : Portfolio :=
  let total_value :=
    p.bankroll + ((p.positions.map (fun kv => (kv.2.quantity : ℚ) * 50)).sum)
  { p with pnl_history :=
      p.pnl_history ++ [⟨timestamp, p.bankroll, total_value, p.positions.length⟩] }

/-! ## Replay engine (`replay.py`) -/

/-- One raw candlestick record as consumed by
`MarketReplayEngine._parse_candlestick` (replay.py).  A field is `none`
when the corresponding key is absent.  The Kalshi API nests
`price`/`yes_bid`/`yes_ask` under sub-objects whose `close` field is the
`*_nested` value here; the `*_flat` values are the flat fallback keys
(`price_close`, `yes_bid_close`, `yes_ask_close`).  JSON nulls are not
modelled. -/
structure RawCandle where
  timestamp : Option ℤ
  end_period_ts : Option ℤ
  price_close_nested : Option ℤ
  yes_bid_close_nested : Option ℤ
  yes_ask_close_nested : Option ℤ
  price_close_flat : Option ℤ
  yes_bid_close_flat : Option ℤ
  yes_ask_close_flat : Option ℤ
  volume : Option ℤ
  open_interest : Option ℤ
deriving DecidableEq, Repr

/-- Embeds `replay.py` `MarketReplayEngine._parse_candlestick`: nested `close`
first, then the flat key, then 0 (the trailing `or 0` of the source is the
identity on integers and only rewrites missing/null values, which are both
collapsed into `none` here). -/
def parse_candlestick (raw : RawCandle) : Candlestick :=
  { timestamp := raw.timestamp.getD (raw.end_period_ts.getD 0)
    yes_bid := ((raw.yes_bid_close_nested.getD (raw.yes_bid_close_flat.getD 0) : ℤ) : ℚ)
    yes_ask := ((raw.yes_ask_close_nested.getD (raw.yes_ask_close_flat.getD 0) : ℤ) : ℚ)
    price_close := ((raw.price_close_nested.getD (raw.price_close_flat.getD 0) : ℤ) : ℚ)
    volume := raw.volume.getD 0
    open_interest := raw.open_interest.getD 0 }

/-- Embeds `replay.py` `ResolvedMarket` (the fields the replay engine reads). -/
structure ResolvedMarket where
  ticker : String
  title : String
  rules_primary : String
  rules_secondary : Option String
  open_time : String
  close_time : String
  result : String
  price_history : List RawCandle
deriving DecidableEq, Repr

/-- Embeds `replay.py` `MarketReplayEngine.get_market_state_at_timestep`: the
state visible at `timestep_idx` is built only from the prefix
`price_history[:timestep_idx + 1]`. -/
def get_market_state_at_timestep (m : ResolvedMarket) (timestep_idx : ℕ) :
    MarketState :=
  let history_up_to_now := m.price_history.take (timestep_idx + 1)
  let candlesticks := history_up_to_now.map parse_candlestick
  let current := candlesticks.getLast?
  { ticker := m.ticker
    title := m.title
    rules_primary := m.rules_primary
    rules_secondary := m.rules_secondary
    current_timestamp := match current with | some c => c.timestamp | none => 0
    open_time := m.open_time
    close_time := m.close_time
    current_yes_bid := match current with | some c => c.yes_bid | none => 50
    current_yes_ask := match current with | some c => c.yes_ask | none => 50
    current_price := match current with | some c => c.price_close | none => 50
    volume := (candlesticks.map Candlestick.volume).sum
    open_interest := match current with | some c => c.open_interest | none => 0
    price_history := candlesticks
    result := m.result }

/-- Embeds `replay.py` `MarketReplayEngine.get_decision_points`, indices only:
all of `0..total-1` when `total ≤ num_points`, otherwise `0`, then
`int(i * (total-1)/(num_points-1))` for `i = 1..num_points-2`, then
`total-1`.  `num_points ≥ 2` is assumed on the second branch (Python
would raise `ZeroDivisionError` for `num_points = 1` there). -/
def decision_point_indices (total : ℕ) (num_points : ℕ) : List ℕ :=
  if total ≤ num_points then List.range total
  else
    let step : ℚ := ((total : ℚ) - 1) / ((num_points : ℚ) - 1)
    [0] ++ ((List.range' 1 (num_points - 2)).map
      (fun (i : ℕ) => (pyInt ((i : ℚ) * step)).toNat)) ++ [total - 1]

/-- Embeds `replay.py` `MarketReplayEngine.get_decision_points`: the sampled
market states (empty when the market has no price history). -/
def get_decision_points (m : ResolvedMarket) (num_points : ℕ) :
    List MarketState :=
  if m.price_history = [] then []
  else (decision_point_indices m.price_history.length num_points).map
    (get_market_state_at_timestep m)

/-! ## Example inputs used by witnesses and counterexamples -/

/-- A fresh portfolio with the given bankroll and positions. -/
def egPortfolio (bankroll : ℚ) (positions : List (String × Position)) :
    Portfolio :=
  ⟨"m", "M", bankroll, bankroll, positions, [], [], 0, 0⟩

/-- A market state for ticker "T" with the given bid and ask. -/
def egState (bid ask : ℚ) : MarketState :=
  ⟨"T", "t", "r", none, 0, "o", "c", bid, ask, 0, 0, 0, [], "yes"⟩

/-- A decision by model "m" on ticker "T". -/
def egDecision (a : Action) (q : ℤ) : TradingDecision :=
  ⟨"m", "T", 0, a, q, 50, "r", 1/2⟩

/-! ## C8 (`scoring.py` `calculate_sharpe_ratio`) -/

/-- Embeds `scoring.py` lines 162-170: period-over-period returns on
`total_value`, skipping periods whose previous value is not positive.
(`record_snapshot` always writes `total_value`, so the source's
`.get("total_value", initial_bankroll)` default never fires.) -/
def period_returns (p : Portfolio) : List ℚ :=
  (p.pnl_history.zip p.pnl_history.tail).filterMap
    (fun pr =>
      if 0 < pr.1.total_value then
        some ((pr.2.total_value - pr.1.total_value) / pr.1.total_value)
      else none)

/-- Embeds `sum(returns) / len(returns)`. -/
def mean_list (l : List ℚ) : ℚ := l.sum / (l.length : ℚ)

/-- Embeds `scoring.py` line 181: sample variance
`sum((r - mean)^2) / (len(returns) - 1)`. -/
def sample_variance (l : List ℚ) : ℚ :=
  ((l.map (fun r => (r - mean_list l) ^ 2)).sum) / ((l.length : ℚ) - 1)

/-- Embeds `scoring.py` `ScoringEngine.calculate_sharpe_ratio`.  Note the
source's `else 0.001` fallback when the variance is not positive. -/
noncomputable def calculate_sharpe_ratio (p : Portfolio)
    (risk_free_rate : ℝ) : ℝ :=
  if p.pnl_history.length < 2 then 0
  else
    let returns := period_returns p
    if returns = [] then 0
    else
      let mean_return := mean_list returns
      if returns.length < 2 then 0
      else
        let variance := sample_variance returns
        let std_dev : ℝ :=
          if 0 < variance then Real.sqrt ((variance : ℚ) : ℝ) else (1/1000 : ℝ)
        let annualized_return : ℝ := ((mean_return : ℚ) : ℝ) * 8760
        let annualized_std : ℝ := std_dev * Real.sqrt 8760
        if annualized_std = 0 then 0
        else (annualized_return - risk_free_rate) / annualized_std

/-- A portfolio whose snapshot history is the given list of total
values (bankroll field mirrors the value; other fields inert). -/
def egHistoryPortfolio (vals : List ℚ) : Portfolio :=
  ⟨"m", "M", 100, 100, [], vals.map (fun v => ⟨0, v, v, 0⟩), [], 0, 0⟩

/-! ## C7: JSON parsing (`decision.py` `_parse_json_response`)

`json.loads` is modelled by a strict recursive-descent JSON parser on the
character list (objects, arrays, strings with escapes, numbers,
`true`/`false`/`null`, whole-input consumption).  Python's `NaN`/
`Infinity` extensions and extreme nesting (the fuel bound) are not
modelled; no claim exercises them. -/

def lbrace : Char := Char.ofNat 123

def rbrace : Char := Char.ofNat 125

def backtick : Char := Char.ofNat 96

/-- A parsed JSON value. -/
inductive JsonVal where
  | null
  | bool (b : Bool)
  | num (q : ℚ)
  | str (s : String)
  | arr (elems : List JsonVal)
  | obj (members : List (String × JsonVal))
deriving Repr

/-- JSON whitespace (space, tab, newline, carriage return). -/
def skipWs : List Char → List Char
  | [] => []
  | c :: cs =>
      if c = ' ' ∨ c = '\t' ∨ c = '\n' ∨ c = '\r' then skipWs cs else c :: cs

def takeDigits : List Char → List Char × List Char
  | [] => ([], [])
  | c :: rest =>
      if c.isDigit then
        let pr := takeDigits rest
        (c :: pr.1, pr.2)
      else ([], c :: rest)

def digitsToNat (ds : List Char) : ℕ :=
  ds.foldl (fun acc c => acc * 10 + (c.toNat - 48)) 0

def hexVal (c : Char) : Option ℕ :=
  if c.isDigit then some (c.toNat - 48)
  else if 'a' ≤ c ∧ c ≤ 'f' then some (c.toNat - 87)
  else if 'A' ≤ c ∧ c ≤ 'F' then some (c.toNat - 55)
  else none

def escChar (e : Char) : Option Char :=
  if e = '"' then some '"'
  else if e = '\\' then some '\\'
  else if e = '/' then some '/'
  else if e = 'b' then some (Char.ofNat 8)
  else if e = 'f' then some (Char.ofNat 12)
  else if e = 'n' then some '\n'
  else if e = 'r' then some '\r'
  else if e = 't' then some '\t'
  else none

/-- JSON string body (after the opening quote): returns the decoded
characters and the remainder after the closing quote. -/
def parseStringChars : List Char → Option (List Char × List Char)
  | [] => none
  | c :: rest =>
      if c = '"' then some ([], rest)
      else if c = '\\' then
        match rest with
        | [] => none
        | e :: rest2 =>
            if e = 'u' then
              match rest2 with
              | h1 :: h2 :: h3 :: h4 :: rest6 =>
                  match hexVal h1, hexVal h2, hexVal h3, hexVal h4 with
                  | some a, some b, some c3, some d =>
                      match parseStringChars rest6 with
                      | some pr =>
                          some (Char.ofNat (((a * 16 + b) * 16 + c3) * 16 + d) :: pr.1, pr.2)
                      | none => none
                  | _, _, _, _ => none
              | _ => none
            else
              match escChar e with
              | some ec =>
                  match parseStringChars rest2 with
                  | some pr => some (ec :: pr.1, pr.2)
                  | none => none
              | none => none
      else if c.toNat < 32 then none
      else
        match parseStringChars rest with
        | some pr => some (c :: pr.1, pr.2)
        | none => none

def parseFrac (cs : List Char) : Option (ℚ × List Char) :=
  match cs with
  | c :: rest =>
      if c = '.' then
        let pr := takeDigits rest
        if pr.1 = [] then none
        else some ((digitsToNat pr.1 : ℚ) / (10 : ℚ) ^ pr.1.length, pr.2)
      else some (0, cs)
  | [] => some (0, [])

def parseExp (cs : List Char) : Option (ℤ × List Char) :=
  match cs with
  | c :: rest =>
      if c = 'e' ∨ c = 'E' then
        let sr : ℤ × List Char :=
          match rest with
          | c2 :: r2 =>
              if c2 = '+' then (1, r2)
              else if c2 = '-' then (-1, r2)
              else (1, rest)
          | [] => (1, rest)
        let pr := takeDigits sr.2
        if pr.1 = [] then none else some (sr.1 * (digitsToNat pr.1 : ℤ), pr.2)
      else some (0, cs)
  | [] => some (0, [])

/-- JSON number (strict: no leading zeros, optional fraction and
exponent). -/
def parseNumber (cs : List Char) : Option (ℚ × List Char) :=
  let nr : Bool × List Char :=
    match cs with
    | c :: rest => if c = '-' then (true, rest) else (false, cs)
    | [] => (false, cs)
  let dr := takeDigits nr.2
  if dr.1 = [] then none
  else if 1 < dr.1.length ∧ dr.1.headD 'x' = '0' then none
  else
    match parseFrac dr.2 with
    | none => none
    | some (fr, cs3) =>
        match parseExp cs3 with
        | none => none
        | some (ex, cs4) =>
            let mag : ℚ := ((digitsToNat dr.1 : ℚ) + fr) * (10 : ℚ) ^ ex
            some ((if nr.1 then -mag else mag), cs4)

def expectLit : List Char → List Char → Option (List Char)
  | [], cs => some cs
  | p :: ps, c :: cs => if c = p then expectLit ps cs else none
  | _ :: _, [] => none

/-- Python dict construction order for object members: later duplicate
keys overwrite in place. -/
def buildDict (members : List (String × JsonVal)) : List (String × JsonVal) :=
  members.foldl (fun d kv => dictInsert d kv.1 kv.2) []

mutual

def parseValue : ℕ → List Char → Option (JsonVal × List Char)
  | 0, _ => none
  | fuel + 1, cs =>
      match skipWs cs with
      | [] => none
      | c :: rest =>
          if c = lbrace then parseObj fuel rest
          else if c = '[' then parseArr fuel rest
          else if c = '"' then
            match parseStringChars rest with
            | some pr => some (JsonVal.str (String.mk pr.1), pr.2)
            | none => none
          else if c = 't' then
            match expectLit ['r', 'u', 'e'] rest with
            | some r => some (JsonVal.bool true, r)
            | none => none
          else if c = 'f' then
            match expectLit ['a', 'l', 's', 'e'] rest with
            | some r => some (JsonVal.bool false, r)
            | none => none
          else if c = 'n' then
            match expectLit ['u', 'l', 'l'] rest with
            | some r => some (JsonVal.null, r)
            | none => none
          else if c = '-' ∨ c.isDigit then
            match parseNumber (c :: rest) with
            | some pr => some (JsonVal.num pr.1, pr.2)
            | none => none
          else none

def parseObj : ℕ → List Char → Option (JsonVal × List Char)
  | 0, _ => none
  | fuel + 1, cs =>
      match skipWs cs with
      | [] => none
      | c :: rest =>
          if c = rbrace then some (JsonVal.obj [], rest)
          else parseMembers fuel (c :: rest) []

def parseMembers : ℕ → List Char → List (String × JsonVal) →
    Option (JsonVal × List Char)
  | 0, _, _ => none
  | fuel + 1, cs, acc =>
      match skipWs cs with
      | [] => none
      | c :: rest =>
          if c = '"' then
            match parseStringChars rest with
            | none => none
            | some (key, cs2) =>
                match skipWs cs2 with
                | c2 :: cs3 =>
                    if c2 = ':' then
                      match parseValue fuel cs3 with
                      | none => none
                      | some (v, cs4) =>
                          let acc2 := acc ++ [(String.mk key, v)]
                          match skipWs cs4 with
                          | c3 :: cs5 =>
                              if c3 = ',' then parseMembers fuel cs5 acc2
                              else if c3 = rbrace then
                                some (JsonVal.obj (buildDict acc2), cs5)
                              else none
                          | [] => none
                    else none
                | [] => none
          else none

def parseArr : ℕ → List Char → Option (JsonVal × List Char)
  | 0, _ => none
  | fuel + 1, cs =>
      match skipWs cs with
      | [] => none
      | c :: rest =>
          if c = ']' then some (JsonVal.arr [], rest)
          else parseElems fuel (c :: rest) []

def parseElems : ℕ → List Char → List JsonVal → Option (JsonVal × List Char)
  | 0, _, _ => none
  | fuel + 1, cs, acc =>
      match parseValue fuel cs with
      | none => none
      | some (v, cs2) =>
          let acc2 := acc ++ [v]
          match skipWs cs2 with
          | c :: cs3 =>
              if c = ',' then parseElems fuel cs3 acc2
              else if c = ']' then some (JsonVal.arr acc2, cs3)
              else none
          | [] => none

end

/-- Embeds `json.loads`: parse and require the whole input consumed. -/
def jsonParse (s : String) : Option JsonVal :=
  let cs := s.toList
  match parseValue (4 * cs.length + 8) cs with
  | some (v, rest) => if skipWs rest = [] then some v else none
  | none => none

/-- Index of the first occurrence of `pattern` in the text, if any. -/
def findSubstrIdx (pattern : List Char) : List Char → Option ℕ
  | [] => if pattern.isEmpty then some 0 else none
  | c :: rest =>
      if pattern.isPrefixOf (c :: rest) then some 0
      else (findSubstrIdx pattern rest).map (· + 1)

def fence3 : List Char := [backtick, backtick, backtick]

def fenceJson : List Char := fence3 ++ "json".toList

/-- Python regex `\s`: space, tab, newline, carriage return, vertical
tab, form feed. -/
def isPyWs (c : Char) : Bool :=
  c = ' ' ∨ c = '\t' ∨ c = '\n' ∨ c = '\r' ∨ c = Char.ofNat 11 ∨ c = Char.ofNat 12

def dropWs : List Char → List Char
  | [] => []
  | c :: rest => if isPyWs c then dropWs rest else c :: rest

/-- Strip leading and trailing whitespace. -/
def trimWs (cs : List Char) : List Char :=
  (dropWs (dropWs cs).reverse).reverse

/-- Embeds `decision.py` pattern 1, the regex
`` ```json\s*([\s\S]*?)\s*``` ``: the content between the first
```` ```json ```` and the next ```` ``` ```` after it, trimmed (the lazy
group plus greedy `\s*` trims surrounding whitespace; a first opener
without any later closer admits no later match either, because any later
opener starts with the closer pattern). -/
def extract_fenced_json (s : String) : Option String :=
  let cs := s.toList
  match findSubstrIdx fenceJson cs with
  | none => none
  | some i =>
      let body := cs.drop (i + fenceJson.length)
      match findSubstrIdx fence3 body with
      | none => none
      | some j => some (String.mk (trimWs (body.take j)))

/-- Embeds `decision.py` pattern 2, the regex `` ```\s*([\s\S]*?)\s*``` ``. -/
def extract_fenced (s : String) : Option String :=
  let cs := s.toList
  match findSubstrIdx fence3 cs with
  | none => none
  | some i =>
      let body := cs.drop (i + fence3.length)
      match findSubstrIdx fence3 body with
      | none => none
      | some j => some (String.mk (trimWs (body.take j)))

/-- Embeds `decision.py` pattern 3, the greedy regex `\{[\s\S]*\}` with
`match.group(0)`: the span from the *first* opening brace to the *last*
closing brace (when the last closing brace lies after the first opening
brace; otherwise no position admits a match). -/
def extract_brace_span (s : String) : Option String :=
  let cs := s.toList
  match findSubstrIdx [lbrace] cs with
  | none => none
  | some i =>
      match findSubstrIdx [rbrace] cs.reverse with
      | none => none
      | some jr =>
          let j := cs.length - 1 - jr
          if i < j then some (String.mk ((cs.drop i).take (j - i + 1)))
          else none

/-- Embeds `decision.py` `LLMDecisionEngine._parse_json_response`: direct parse,
then each extraction pattern in order, moving on when either the pattern
does not match or its extract fails to parse. -/
def parse_json_response (response : String) : Option JsonVal :=
  match jsonParse response with
  | some v => some v
  | none =>
      match (extract_fenced_json response).bind jsonParse with
      | some v => some v
      | none =>
          match (extract_fenced response).bind jsonParse with
          | some v => some v
          | none => (extract_brace_span response).bind jsonParse

/-- Modelled from the spec: "search for the first balanced-brace
substring and parse it" — the substring starting at the first opening
brace and ending where the brace nesting returns to zero.  (The code
instead takes a single greedy regex span; this definition exists only to
compare the spec's description against the code.) -/
def spec_first_balanced_brace (s : String) : Option String :=
  match findSubstrIdx [lbrace] s.toList with
  | none => none
  | some i => (balancedScan (s.toList.drop i) 0 []).map String.mk
where
  balancedScan : List Char → ℕ → List Char → Option (List Char)
    | [], _, _ => none
    | c :: cs, depth, acc =>
        if c = lbrace then balancedScan cs (depth + 1) (acc ++ [c])
        else if c = rbrace then
          if depth ≤ 1 then some (acc ++ [c])
          else balancedScan cs (depth - 1) (acc ++ [c])
        else balancedScan cs depth (acc ++ [c])

/-- Python truthiness of a parsed JSON value (`if not parsed`). -/
def jsonFalsy : JsonVal → Bool
  | JsonVal.null => true
  | JsonVal.bool b => !b
  | JsonVal.num q => q = 0
  | JsonVal.str s => s.isEmpty
  | JsonVal.arr l => l.isEmpty
  | JsonVal.obj m => m.isEmpty

/-- Embeds `parsed.get(key)` on a parsed object; `none` for a missing key (a
non-object raises `AttributeError`, handled in `parse_fields`). -/
def json_get (j : JsonVal) (key : String) : Option JsonVal :=
  match j with
  | JsonVal.obj members => members.lookup key
  | _ => none

/-- Embeds `decision.py` lines 216-224: the closed action lookup, defaulting to
`hold` on an unrecognized string; bare `"sell"` maps to `sell_yes`. -/
def action_from_str (s : String) : Action :=
  if s = "buy_yes" then Action.buy_yes
  else if s = "buy_no" then Action.buy_no
  else if s = "hold" then Action.hold
  else if s = "sell_yes" then Action.sell_yes
  else if s = "sell_no" then Action.sell_no
  else if s = "sell" then Action.sell_yes
  else Action.hold

/-- Python `int(str)`: optional sign and digits after stripping
whitespace. -/
def pyStrToInt (s : String) : Option ℤ :=
  let cs := trimWs s.toList
  let nr : Bool × List Char :=
    match cs with
    | c :: rest =>
        if c = '-' then (true, rest)
        else if c = '+' then (false, rest)
        else (false, cs)
    | [] => (false, [])
  let dr := takeDigits nr.2
  if dr.1 = [] ∨ ¬ (dr.2 = []) then none
  else some ((if nr.1 then -1 else 1) * (digitsToNat dr.1 : ℤ))

/-- Python `float(str)` on the common numeric forms. -/
def pyStrToFloat (s : String) : Option ℚ :=
  let cs := trimWs s.toList
  let cs1 := match cs with
    | c :: rest => if c = '+' then rest else cs
    | [] => cs
  match parseNumber cs1 with
  | some (q, rest) => if rest = [] then some q else none
  | none => none

/-- Python `int(x)` on a JSON value: truncation for numbers, `0`/`1` for
booleans, digit parse for strings; `None`/lists/dicts raise (`none`). -/
def pyToInt (j : JsonVal) : Option ℤ :=
  match j with
  | JsonVal.num q => some (pyInt q)
  | JsonVal.bool b => some (if b then 1 else 0)
  | JsonVal.str s => pyStrToInt s
  | _ => none

/-- Python `float(x)` on a JSON value. -/
def pyToFloat (j : JsonVal) : Option ℚ :=
  match j with
  | JsonVal.num q => some q
  | JsonVal.bool b => some (if b then 1 else 0)
  | JsonVal.str s => pyStrToFloat s
  | _ => none

/-- Python `str(x)`; container rendering is not modelled (no claim
exercises it). -/
def pyToStr (j : JsonVal) : String :=
  match j with
  | JsonVal.str s => s
  | JsonVal.null => "None"
  | JsonVal.bool true => "True"
  | JsonVal.bool false => "False"
  | JsonVal.num q => toString q
  | _ => ""

/-- Embeds `decision.py` `DecisionResult`. -/
structure DecisionResult where
  success : Bool
  decision : Option TradingDecision
  raw_response : String
  error : Option String
deriving DecidableEq, Repr

/-- Outcome of the field-extraction `try` block of `_parse_decision`:
`caught` is a `ValueError`/`TypeError` handled by its `except`;
`uncaught` is an `AttributeError` (`.get` on a non-dict, `.lower()` on a
non-string) that escapes to `get_decision`'s catch-all. -/
inductive FieldOutcome where
  | ok (d : TradingDecision)
  | caught (msg : String)
  | uncaught (msg : String)
deriving Repr

/-- Embeds `decision.py` lines 214-246: extract and validate the decision
fields, clamping quantity to `[0, 100]`, confidence to `[0, 100]` and
probability to `[0, 1]`. -/
def parse_fields (parsed : JsonVal) (model_id market_ticker : String)
    (timestamp : ℤ) : FieldOutcome :=
  match parsed with
  | JsonVal.obj _ =>
      match (json_get parsed "action").getD (JsonVal.str "hold") with
      | JsonVal.str sa =>
          let action := action_from_str sa.toLower
          match pyToInt ((json_get parsed "quantity").getD (JsonVal.num 0)) with
          | none => FieldOutcome.caught "Failed to parse decision fields"
          | some q0 =>
              match pyToFloat ((json_get parsed "confidence").getD (JsonVal.num 50)) with
              | none => FieldOutcome.caught "Failed to parse decision fields"
              | some c0 =>
                  match pyToFloat ((json_get parsed "probability_yes").getD
                      (JsonVal.num (1/2))) with
                  | none => FieldOutcome.caught "Failed to parse decision fields"
                  | some py0 =>
                      let reasoning := pyToStr ((json_get parsed "reasoning").getD
                        (JsonVal.str "No reasoning provided"))
                      FieldOutcome.ok
                        ⟨model_id, market_ticker, timestamp, action,
                          max 0 (min 100 q0), max 0 (min 100 c0), reasoning,
                          max 0 (min 1 py0)⟩
      | _ => FieldOutcome.uncaught "AttributeError"
  | _ => FieldOutcome.uncaught "AttributeError"

/-- Embeds `decision.py` `LLMDecisionEngine._parse_decision` (with
`get_decision`'s catch-all wrapping the uncaught case): a typed
`DecisionResult`, never an exception to the caller. -/
def parse_decision (response model_id market_ticker : String)
    (timestamp : ℤ) : DecisionResult :=
  match parse_json_response response with
  | none => ⟨false, none, response, some "Failed to parse JSON from response"⟩
  | some parsed =>
      if jsonFalsy parsed then
        ⟨false, none, response, some "Failed to parse JSON from response"⟩
      else
        match parse_fields parsed model_id market_ticker timestamp with
        | FieldOutcome.ok d => ⟨true, some d, response, none⟩
        | FieldOutcome.caught m => ⟨false, none, response, some m⟩
        | FieldOutcome.uncaught m => ⟨false, none, "", some m⟩

/-- Embeds `simulation.py` `run` lines 279-297 for one agent at one decision
point, with the oracle's raw text response given: the trade is executed
only when the response parsed successfully into a decision; otherwise
the portfolio (and so its decision history) is untouched. -/
def apply_oracle_response (maxPct : ℚ) (p : Portfolio) (s : MarketState)
    (model_id : String) (response : String) :
    Portfolio × Option TradeExecution :=
  let result := parse_decision response model_id s.ticker s.current_timestamp
  match result.success, result.decision with
  | true, some dec =>
      let r := execute_decision maxPct p dec s
      (r.1, some r.2)
  | _, _ => (p, none)

/-! ## C9: the simulation loop (`simulation.py` `run`) and scoring

The orchestrator is modelled by its sequential semantics: all agents'
decisions at a decision point are collected and applied in agent order
before the next point (the source gathers fan-out results before any
state mutation, per the ordering guarantee), and the oracle is a
deterministic function from (model id, market state, portfolio) to raw
response text.  Wall-clock fields, tracing and status broadcasting do
not influence portfolios or rankings and are omitted. -/

/-- A deterministic oracle stub: raw response text per query. -/
def Oracle : Type := String → MarketState → Portfolio → String

/-- Embeds `scoring.py` `MarketPrediction`. -/
structure MarketPrediction where
  model_id : String
  market_ticker : String
  probability_yes : ℚ
  actual_result : String
  timestamp : ℤ
deriving DecidableEq, Repr

/-- Embeds `scoring.py` `ScoringEngine.record_prediction`: only directional
bets are recorded. -/
def record_prediction (preds : List MarketPrediction) (d : TradingDecision)
    (actual_result : String) : List MarketPrediction :=
  if d.action = Action.buy_yes ∨ d.action = Action.buy_no then
    preds ++ [⟨d.model_id, d.market_ticker, d.probability_yes, actual_result,
      d.timestamp⟩]
  else preds

/-- Embeds `scoring.py` `calculate_brier_score`. -/
def calculate_brier_score (preds : List MarketPrediction)
    (model_id : String) : ℚ :=
  let mp := preds.filter (fun p => p.model_id == model_id)
  if mp = [] then 1/4
  else
    ((mp.map (fun pred =>
      (pred.probability_yes - (if pred.actual_result = "yes" then 1 else 0)) ^ 2)).sum)
      / (mp.length : ℚ)

/-- Embeds `scoring.py` `calculate_accuracy`. -/
def calculate_accuracy (preds : List MarketPrediction)
    (model_id : String) : ℚ :=
  let mp := preds.filter (fun p => p.model_id == model_id)
  if mp = [] then 1/2
  else
    ((mp.countP (fun pred =>
      decide ((1/2 : ℚ) ≤ pred.probability_yes) == decide (pred.actual_result = "yes"))
      : ℚ)) / (mp.length : ℚ)

/-- Embeds `scoring.py` `calculate_roi`. -/
def calculate_roi (p : Portfolio) : ℚ :=
  if p.initial_bankroll = 0 then 0
  else (p.bankroll - p.initial_bankroll) / p.initial_bankroll

/-- Embeds `scoring.py` `calculate_win_rate`. -/
def calculate_win_rate (p : Portfolio) : ℚ :=
  if p.total_trades = 0 then 0
  else (p.winning_trades : ℚ) / (p.total_trades : ℚ)

/-- Embeds `models.py` `ModelScore`. -/
structure ModelScore where
  model_id : String
  model_name : String
  roi : ℚ
  final_bankroll : ℚ
  brier_score : ℚ
  accuracy : ℚ
  win_rate : ℚ
  total_trades : ℕ
  sharpe_ratio : ℝ

/-- Embeds `scoring.py` `calculate_model_score`. -/
noncomputable def calculate_model_score (preds : List MarketPrediction)
    (p : Portfolio) : ModelScore :=
  ⟨p.model_id, p.model_name, calculate_roi p, p.bankroll,
    calculate_brier_score preds p.model_id, calculate_accuracy preds p.model_id,
    calculate_win_rate p, p.total_trades, calculate_sharpe_ratio p 0⟩

/-- Stable descending insertion on ROI, modelling Python's stable
`sort(key=roi, reverse=True)`: a new element passes elements of
strictly smaller ROI only, so equal-ROI elements keep their original
order. -/
def insert_by_roi (s : ModelScore) : List ModelScore → List ModelScore
  | [] => [s]
  | t :: ts => if t.roi < s.roi then s :: t :: ts else t :: insert_by_roi s ts

/-- Embeds `scoring.py` `calculate_all_scores`: score every portfolio, sorted
by ROI descending (stable). -/
noncomputable def calculate_all_scores (preds : List MarketPrediction)
    (portfolios : List Portfolio) : List ModelScore :=
  (portfolios.map (calculate_model_score preds)).foldl
    (fun acc s => insert_by_roi s acc) []

/-- Embeds `scoring.py` `get_rankings`. -/
def get_rankings (scores : List ModelScore) : List String :=
  scores.map (fun s => s.model_id)

/-- Embeds `portfolio.py` `record_snapshot` over the whole manager. -/
def record_snapshots (portfolios : List (String × Portfolio)) (ts : ℤ) :
    List (String × Portfolio) :=
  portfolios.map (fun kv => (kv.1, record_snapshot kv.2 ts))

/-- Embeds `simulation.py` `run`, one decision point: for each model in order,
query the oracle, parse, and on success execute the trade and record the
prediction against the market's result. -/
def run_decision_point (maxPct : ℚ) (models : List String) (oracle : Oracle)
    (state : MarketState) (actual_result : String)
    (st : List (String × Portfolio) × List MarketPrediction) :
    List (String × Portfolio) × List MarketPrediction :=
  models.foldl
    (fun acc model_id =>
      match acc.1.lookup model_id with
      | none => acc
      | some portfolio =>
          let response := oracle model_id state portfolio
          let result := parse_decision response model_id state.ticker
            state.current_timestamp
          match result.success, result.decision with
          | true, some dec =>
              let r := pmExecute maxPct acc.1 dec state
              (r.1, record_prediction acc.2 dec actual_result)
          | _, _ => acc)
    st

/-- Embeds `simulation.py` `run`, one market: every decision point in order
(with a portfolio snapshot after each), then settlement. -/
def run_market (maxPct : ℚ) (models : List String) (oracle : Oracle)
    (num_points : ℕ) (st : List (String × Portfolio) × List MarketPrediction)
    (m : ResolvedMarket) :
    List (String × Portfolio) × List MarketPrediction :=
  let st1 := (get_decision_points m num_points).foldl
    (fun acc state =>
      let acc1 := run_decision_point maxPct models oracle state m.result acc
      (record_snapshots acc1.1 state.current_timestamp, acc1.2))
    st
  ((settle_market st1.1 m.ticker m.result).1, st1.2)

/-- Embeds `portfolio.py` `PortfolioManager.__init__`. -/
def init_portfolios (models : List String)
    (model_names : List (String × String)) (initial_bankroll : ℚ) :
    List (String × Portfolio) :=
  models.map (fun id =>
    (id, ⟨id, (model_names.lookup id).getD id, initial_bankroll,
      initial_bankroll, [], [], [], 0, 0⟩))

/-- Embeds `simulation.py` `run`: process every market in order, returning the
final portfolios and recorded predictions. -/
def run_simulation (maxPct : ℚ) (models : List String) (oracle : Oracle)
    (markets : List ResolvedMarket) (num_points : ℕ)
    (initial_bankroll : ℚ) :
    List (String × Portfolio) × List MarketPrediction :=
  markets.foldl (run_market maxPct models oracle num_points)
    (init_portfolios models [] initial_bankroll, [])

/-- Embeds `simulation.py` `run` tail: final scores sorted by ROI, rankings. -/
noncomputable def simulation_rankings (maxPct : ℚ) (models : List String)
    (oracle : Oracle) (markets : List ResolvedMarket) (num_points : ℕ)
    (initial_bankroll : ℚ) : List String :=
  let st := run_simulation maxPct models oracle markets num_points
    initial_bankroll
  get_rankings (calculate_all_scores st.2 (st.1.map (fun kv => kv.2)))

/-! ## Helper lemmas -/

theorem pyInt_of_nonneg {q : ℚ} (h : 0 ≤ q) : pyInt q = ⌊q⌋ := if_pos h

theorem pyInt_nonpos_of_neg {q : ℚ} (h : q < 0) : pyInt q ≤ 0 := by
  have : ¬ (0 ≤ q) := not_le.mpr h
  rw [pyInt, if_neg this]
  simp only [neg_nonpos]
  exact Int.le_floor.mpr (by push_cast; linarith)

theorem clampPrice_pos (q : ℚ) : 0 < clampPrice q := by
  simp only [clampPrice]
  by_cases h1 : q ≤ 0
  · rw [if_pos h1]
    split_ifs <;> norm_num
  · rw [if_neg h1]
    split_ifs <;> [norm_num; linarith [not_le.mp h1]]

theorem lookup_dictErase {α : Type} (d : List (String × α)) (k : String) :
    (dictErase d k).lookup k = none := by
  induction d with
  | nil => rfl
  | cons kv rest ih =>
      rw [dictErase, List.filter]
      by_cases h : kv.1 = k
      · simp only [h, bne_self_eq_false]
        exact ih
      · have hb : (kv.1 != k) = true := bne_iff_ne.mpr h
        rw [hb]
        rw [List.lookup]
        have : (k == kv.1) = false := beq_eq_false_iff_ne.mpr (fun hk => h hk.symm)
        rw [this]
        exact ih

/-! ## C2 -/

/-- C2 counterexample: the code checks only that *some* position exists in
the ticker, not that its side matches.  An agent holding 25 YES contracts
who issues `sell_no` has the trade executed (success, bankroll changed)
instead of failing with a no-position condition, refuting the claim that
"a sell_no while holding a yes position does not execute". -/
theorem sell_opposite_side_executes_counterexample :
    (execute_decision (1/10)
        (egPortfolio 1000 [("T", ⟨"T", "yes", 25, 40, 0⟩)])
        (egDecision Action.sell_no 10) (egState 30 60)).2.success = true ∧
    (execute_decision (1/10)
        (egPortfolio 1000 [("T", ⟨"T", "yes", 25, 40, 0⟩)])
        (egDecision Action.sell_no 10) (egState 30 60)).1.bankroll = 1400 ∧
    (egPortfolio 1000 [("T", ⟨"T", "yes", 25, 40, 0⟩)]).bankroll = 1000 ∧
    (1400 : ℚ) ≠ 1000 := by
  refine ⟨?_, ?_, rfl, by norm_num⟩ <;>
    norm_num [execute_decision, execute_sell, egPortfolio, egDecision, egState,
      raw_price, clampPrice, dictInsert, dictErase, List.lookup]

/-- C2 (amended): a `sell_yes`/`sell_no` decision by an agent holding *no
position at all* in the ticker fails with the no-position condition and
leaves bankroll and positions unchanged; the side of an existing position
is not checked, so a sell on the opposite side of a held position does
execute against it. -/
theorem sell_without_position_fails (maxPct : ℚ) (p : Portfolio)
    (d : TradingDecision) (s : MarketState)
    (hact : d.action = Action.sell_yes ∨ d.action = Action.sell_no)
    (hnone : p.positions.lookup d.market_ticker = none) :
    (execute_decision maxPct p d s).2.success = false ∧
    (execute_decision maxPct p d s).2.error = some "No position to sell" ∧
    (execute_decision maxPct p d s).1.bankroll = p.bankroll ∧
    (execute_decision maxPct p d s).1.positions = p.positions := by
  rcases hact with h | h <;> simp [execute_decision, execute_sell, h, hnone]

/-- C2 witness: concrete instance of `sell_without_position_fails`. -/
theorem sell_without_position_fails_witness :
    ((egDecision Action.sell_no 10).action = Action.sell_yes ∨
      (egDecision Action.sell_no 10).action = Action.sell_no) ∧
    (egPortfolio 1000 []).positions.lookup
      (egDecision Action.sell_no 10).market_ticker = none ∧
    (execute_decision (1/10) (egPortfolio 1000 [])
        (egDecision Action.sell_no 10) (egState 30 60)).2.success = false ∧
    (execute_decision (1/10) (egPortfolio 1000 [])
        (egDecision Action.sell_no 10) (egState 30 60)).2.error =
      some "No position to sell" ∧
    (execute_decision (1/10) (egPortfolio 1000 [])
        (egDecision Action.sell_no 10) (egState 30 60)).1.bankroll =
      (egPortfolio 1000 []).bankroll ∧
    (execute_decision (1/10) (egPortfolio 1000 [])
        (egDecision Action.sell_no 10) (egState 30 60)).1.positions =
      (egPortfolio 1000 []).positions := by
  refine ⟨Or.inr rfl, rfl, ?_⟩
  have h := sell_without_position_fails (1/10) (egPortfolio 1000 [])
    (egDecision Action.sell_no 10) (egState 30 60) (Or.inr rfl) rfl
  exact ⟨h.1, h.2.1, h.2.2.1, h.2.2.2⟩

/-! ## C1 -/

theorem pyInt_max_eq_floor {x : ℚ} (hx : 0 ≤ ⌊x⌋) : max 0 (pyInt x) = ⌊x⌋ := by
  have hx0 : (0:ℚ) ≤ x := le_trans (by exact_mod_cast hx) (Int.floor_le x)
  rw [pyInt_of_nonneg hx0, max_eq_right hx]

theorem pos_code_cap {x : ℚ} (hx : 0 < max 0 (pyInt x)) : max 0 (pyInt x) = ⌊x⌋ := by
  have h1 : 0 < pyInt x := by
    rcases le_or_lt (pyInt x) 0 with h | h
    · rw [max_eq_left h] at hx
      exact absurd hx (lt_irrefl 0)
    · exact h
  have h2 : (0:ℚ) ≤ x := by
    by_contra h
    exact absurd (pyInt_nonpos_of_neg (not_le.mp h)) (not_le.mpr h1)
  rw [pyInt_of_nonneg h2] at h1 ⊢
  exact max_eq_right h1.le

theorem execute_buy_price (maxPct : ℚ) (p : Portfolio) (d : TradingDecision)
    (side : String) (praw : ℚ) :
    (execute_buy maxPct p d side praw).2.price = clampPrice praw := by
  simp only [execute_buy]
  split_ifs <;> rfl

/-- The buy path in isolation: on success the executed quantity is
`min(requested, floor(bankroll * maxPct / price))` and the bankroll drops
by `quantity * price`; when the capped quantity is `0` the trade fails
with the insufficient-bankroll error and the portfolio is unchanged. -/
theorem execute_buy_spec (maxPct : ℚ) (p : Portfolio) (d : TradingDecision)
    (side : String) (praw : ℚ) :
    ((execute_buy maxPct p d side praw).2.success = true →
      (execute_buy maxPct p d side praw).2.quantity =
        min d.quantity
          ⌊p.bankroll * maxPct / (execute_buy maxPct p d side praw).2.price⌋ ∧
      (execute_buy maxPct p d side praw).1.bankroll =
        p.bankroll -
          ((execute_buy maxPct p d side praw).2.quantity : ℚ) *
            (execute_buy maxPct p d side praw).2.price) ∧
    (min d.quantity
        ⌊p.bankroll * maxPct / (execute_buy maxPct p d side praw).2.price⌋ = 0 →
      (execute_buy maxPct p d side praw).2.success = false ∧
      (execute_buy maxPct p d side praw).2.error = some "Insufficient bankroll" ∧
      (execute_buy maxPct p d side praw).1 = p) := by
  have hp : 0 < clampPrice praw := clampPrice_pos praw
  simp only [execute_buy, calculate_max_quantity, if_neg (not_le.mpr hp)]
  by_cases hq : min d.quantity
      (max 0 (pyInt (p.bankroll * maxPct / clampPrice praw))) ≤ 0
  · rw [if_pos hq]
    constructor
    · intro hs
      exact absurd hs (by simp)
    · intro _
      exact ⟨rfl, rfl, rfl⟩
  · rw [if_neg hq]
    have hcap0 : 0 < min d.quantity
        (max 0 (pyInt (p.bankroll * maxPct / clampPrice praw))) := not_le.mp hq
    have hcap : max 0 (pyInt (p.bankroll * maxPct / clampPrice praw)) =
        ⌊p.bankroll * maxPct / clampPrice praw⌋ :=
      pos_code_cap (lt_min_iff.mp hcap0).2
    constructor
    · intro _
      constructor
      · dsimp only
        rw [hcap]
      · dsimp only
        rcases hl : p.positions.lookup d.market_ticker with _ | pos <;>
          simp only [hl] <;> split_ifs <;> rfl
    · intro hmin
      exfalso
      dsimp only at hmin
      have hfl : (0:ℤ) ≤ ⌊p.bankroll * maxPct / clampPrice praw⌋ := by
        rcases le_or_lt 0 ⌊p.bankroll * maxPct / clampPrice praw⌋ with h | h
        · exact h
        · have hle := min_le_right d.quantity
            ⌊p.bankroll * maxPct / clampPrice praw⌋
          omega
      rw [pyInt_max_eq_floor hfl] at hq
      exact hq (le_of_eq hmin)

/-- C1: for buy decisions, on success the execution price is positive,
the executed quantity is `min(requested, floor(bankroll_before *
max_position_fraction / price))` and `bankroll_after = bankroll_before -
quantity * price`; when the capped quantity is `0` the trade fails with
the insufficient-funds condition and bankroll and positions are
unchanged. -/
theorem buy_quantity_cap_and_bankroll (maxPct : ℚ) (p : Portfolio)
    (d : TradingDecision) (s : MarketState)
    (hact : d.action = Action.buy_yes ∨ d.action = Action.buy_no) :
    ((execute_decision maxPct p d s).2.success = true →
      0 < (execute_decision maxPct p d s).2.price ∧
      (execute_decision maxPct p d s).2.quantity =
        min d.quantity
          ⌊p.bankroll * maxPct / (execute_decision maxPct p d s).2.price⌋ ∧
      (execute_decision maxPct p d s).1.bankroll =
        p.bankroll -
          ((execute_decision maxPct p d s).2.quantity : ℚ) *
            (execute_decision maxPct p d s).2.price) ∧
    (min d.quantity
        ⌊p.bankroll * maxPct / (execute_decision maxPct p d s).2.price⌋ = 0 →
      (execute_decision maxPct p d s).2.success = false ∧
      (execute_decision maxPct p d s).2.error = some "Insufficient bankroll" ∧
      (execute_decision maxPct p d s).1.bankroll = p.bankroll ∧
      (execute_decision maxPct p d s).1.positions = p.positions) := by
  rcases hact with h | h
  · simp only [execute_decision, h]
    have hspec := execute_buy_spec maxPct
      { p with decisions := p.decisions ++ [d] } d "yes" s.current_yes_ask
    dsimp only at hspec
    refine ⟨fun hs => ⟨?_, (hspec.1 hs).1, (hspec.1 hs).2⟩, fun hmin => ?_⟩
    · rw [execute_buy_price]
      exact clampPrice_pos _
    · obtain ⟨h1, h2, h3⟩ := hspec.2 hmin
      exact ⟨h1, h2, by rw [h3], by rw [h3]⟩
  · simp only [execute_decision, h]
    have hspec := execute_buy_spec maxPct
      { p with decisions := p.decisions ++ [d] } d "no" (100 - s.current_yes_bid)
    dsimp only at hspec
    refine ⟨fun hs => ⟨?_, (hspec.1 hs).1, (hspec.1 hs).2⟩, fun hmin => ?_⟩
    · rw [execute_buy_price]
      exact clampPrice_pos _
    · obtain ⟨h1, h2, h3⟩ := hspec.2 hmin
      exact ⟨h1, h2, by rw [h3], by rw [h3]⟩

/-- C1 witness: bankroll 10000¢, max position 10%, buy YES qty 100 at ask
40¢: the cap is 25 contracts and the bankroll becomes 9000¢. -/
theorem buy_quantity_cap_and_bankroll_witness :
    ((egDecision Action.buy_yes 100).action = Action.buy_yes ∨
      (egDecision Action.buy_yes 100).action = Action.buy_no) ∧
    (execute_decision (1/10) (egPortfolio 10000 [])
        (egDecision Action.buy_yes 100) (egState 30 40)).2.success = true ∧
    (0 < (execute_decision (1/10) (egPortfolio 10000 [])
        (egDecision Action.buy_yes 100) (egState 30 40)).2.price ∧
      (execute_decision (1/10) (egPortfolio 10000 [])
          (egDecision Action.buy_yes 100) (egState 30 40)).2.quantity =
        min (egDecision Action.buy_yes 100).quantity
          ⌊(egPortfolio 10000 []).bankroll * (1/10) /
            (execute_decision (1/10) (egPortfolio 10000 [])
              (egDecision Action.buy_yes 100) (egState 30 40)).2.price⌋ ∧
      (execute_decision (1/10) (egPortfolio 10000 [])
          (egDecision Action.buy_yes 100) (egState 30 40)).1.bankroll =
        (egPortfolio 10000 []).bankroll -
          (((execute_decision (1/10) (egPortfolio 10000 [])
              (egDecision Action.buy_yes 100) (egState 30 40)).2.quantity : ℚ) *
            (execute_decision (1/10) (egPortfolio 10000 [])
              (egDecision Action.buy_yes 100) (egState 30 40)).2.price)) := by
  have hs : (execute_decision (1/10) (egPortfolio 10000 [])
      (egDecision Action.buy_yes 100) (egState 30 40)).2.success = true := by
    norm_num [execute_decision, execute_buy, calculate_max_quantity, pyInt,
      clampPrice, egPortfolio, egDecision, egState, dictInsert, List.lookup]
  exact ⟨Or.inl rfl, hs,
    (buy_quantity_cap_and_bankroll (1/10) (egPortfolio 10000 [])
      (egDecision Action.buy_yes 100) (egState 30 40) (Or.inl rfl)).1 hs⟩

/-! ## C3 -/

/-- C3: settling a market with known result pays `100` per contract on the
matching side and `0` otherwise: `pnl = quantity * settlement_value -
quantity * avg_price`, the bankroll rises by `quantity *
settlement_value`, a strictly positive pnl (and only that) bumps the
winning-trade counter, and the position is deleted.  An agent without a
position in the ticker is a no-op returning zero pnl, hence settling the
same ticker twice is idempotent: the second settlement returns pnl `0`
and changes nothing. -/
theorem settle_market_spec (p : Portfolio) (t result : String)
    (hres : result = "yes" ∨ result = "no") :
    (∀ pos, p.positions.lookup t = some pos →
      (settle_portfolio p t result).2 =
        (pos.quantity : ℚ) * (if pos.side = result then 100 else 0) -
          (pos.quantity : ℚ) * pos.avg_price ∧
      (settle_portfolio p t result).1.bankroll =
        p.bankroll + (pos.quantity : ℚ) * (if pos.side = result then 100 else 0) ∧
      (0 < (settle_portfolio p t result).2 →
        (settle_portfolio p t result).1.winning_trades = p.winning_trades + 1) ∧
      ((settle_portfolio p t result).2 ≤ 0 →
        (settle_portfolio p t result).1.winning_trades = p.winning_trades) ∧
      (settle_portfolio p t result).1.positions.lookup t = none) ∧
    (p.positions.lookup t = none → settle_portfolio p t result = (p, 0)) ∧
    (settle_portfolio (settle_portfolio p t result).1 t result =
      ((settle_portfolio p t result).1, 0)) := by
  have hnonecase : ∀ q : Portfolio, q.positions.lookup t = none →
      settle_portfolio q t result = (q, 0) := by
    intro q hq
    simp only [settle_portfolio, hq]
  have hsome : ∀ pos, p.positions.lookup t = some pos →
      (settle_portfolio p t result).2 =
        (pos.quantity : ℚ) * (if pos.side = result then 100 else 0) -
          (pos.quantity : ℚ) * pos.avg_price ∧
      (settle_portfolio p t result).1.bankroll =
        p.bankroll + (pos.quantity : ℚ) * (if pos.side = result then 100 else 0) ∧
      (0 < (settle_portfolio p t result).2 →
        (settle_portfolio p t result).1.winning_trades = p.winning_trades + 1) ∧
      ((settle_portfolio p t result).2 ≤ 0 →
        (settle_portfolio p t result).1.winning_trades = p.winning_trades) ∧
      (settle_portfolio p t result).1.positions.lookup t = none := by
    intro pos hl
    have hsv : (if result = "yes" then (if pos.side = "yes" then (100:ℚ) else 0)
        else (if pos.side = "no" then 100 else 0)) =
        (if pos.side = result then 100 else 0) := by
      rcases hres with hr | hr <;> subst hr <;> simp
    by_cases hw : 0 < (pos.quantity : ℚ) * (if pos.side = result then 100 else 0) -
        (pos.quantity : ℚ) * pos.avg_price
    · have heq : settle_portfolio p t result =
          ({ p with
              bankroll := p.bankroll +
                (pos.quantity : ℚ) * (if pos.side = result then 100 else 0),
              winning_trades := p.winning_trades + 1,
              positions := dictErase p.positions t },
            (pos.quantity : ℚ) * (if pos.side = result then 100 else 0) -
              (pos.quantity : ℚ) * pos.avg_price) := by
        simp only [settle_portfolio, hl, hsv, if_pos hw]
      rw [heq]
      exact ⟨rfl, rfl, fun _ => rfl,
        fun hle => absurd hw (not_lt.mpr hle), lookup_dictErase _ _⟩
    · have heq : settle_portfolio p t result =
          ({ p with
              bankroll := p.bankroll +
                (pos.quantity : ℚ) * (if pos.side = result then 100 else 0),
              positions := dictErase p.positions t },
            (pos.quantity : ℚ) * (if pos.side = result then 100 else 0) -
              (pos.quantity : ℚ) * pos.avg_price) := by
        simp only [settle_portfolio, hl, hsv, if_neg hw]
      rw [heq]
      exact ⟨rfl, rfl, fun hgt => absurd hgt hw,
        fun _ => rfl, lookup_dictErase _ _⟩
  refine ⟨hsome, hnonecase p, ?_⟩
  rcases hl : p.positions.lookup t with _ | pos
  · rw [hnonecase p hl]
    exact hnonecase p hl
  · exact hnonecase _ ((hsome pos hl).2.2.2.2)

/-- C3 witness: holding 25 YES at avg 40¢ and the market resolving "yes"
pays 2500¢, realizes pnl 1500¢, bumps the winning-trade counter and
removes the position; the second settlement is a no-op with pnl 0. -/
theorem settle_market_spec_witness :
    (("yes" : String) = "yes" ∨ ("yes" : String) = "no") ∧
    (egPortfolio 1000 [("T", ⟨"T", "yes", 25, 40, 0⟩)]).positions.lookup "T" =
      some ⟨"T", "yes", 25, 40, 0⟩ ∧
    ((settle_portfolio (egPortfolio 1000 [("T", ⟨"T", "yes", 25, 40, 0⟩)])
        "T" "yes").2 =
      ((25:ℤ) : ℚ) * (if ("yes" : String) = "yes" then 100 else 0) -
        ((25:ℤ) : ℚ) * 40 ∧
      (settle_portfolio (egPortfolio 1000 [("T", ⟨"T", "yes", 25, 40, 0⟩)])
          "T" "yes").1.bankroll =
        (egPortfolio 1000 [("T", ⟨"T", "yes", 25, 40, 0⟩)]).bankroll +
          ((25:ℤ) : ℚ) * (if ("yes" : String) = "yes" then 100 else 0) ∧
      (0 < (settle_portfolio (egPortfolio 1000 [("T", ⟨"T", "yes", 25, 40, 0⟩)])
          "T" "yes").2 →
        (settle_portfolio (egPortfolio 1000 [("T", ⟨"T", "yes", 25, 40, 0⟩)])
            "T" "yes").1.winning_trades =
          (egPortfolio 1000 [("T", ⟨"T", "yes", 25, 40, 0⟩)]).winning_trades + 1) ∧
      ((settle_portfolio (egPortfolio 1000 [("T", ⟨"T", "yes", 25, 40, 0⟩)])
          "T" "yes").2 ≤ 0 →
        (settle_portfolio (egPortfolio 1000 [("T", ⟨"T", "yes", 25, 40, 0⟩)])
            "T" "yes").1.winning_trades =
          (egPortfolio 1000 [("T", ⟨"T", "yes", 25, 40, 0⟩)]).winning_trades) ∧
      (settle_portfolio (egPortfolio 1000 [("T", ⟨"T", "yes", 25, 40, 0⟩)])
          "T" "yes").1.positions.lookup "T" = none) ∧
    settle_portfolio
        (settle_portfolio (egPortfolio 1000 [("T", ⟨"T", "yes", 25, 40, 0⟩)])
          "T" "yes").1 "T" "yes" =
      ((settle_portfolio (egPortfolio 1000 [("T", ⟨"T", "yes", 25, 40, 0⟩)])
          "T" "yes").1, 0) := by
  have h := settle_market_spec
    (egPortfolio 1000 [("T", ⟨"T", "yes", 25, 40, 0⟩)]) "T" "yes" (Or.inl rfl)
  exact ⟨Or.inl rfl, rfl, h.1 ⟨"T", "yes", 25, 40, 0⟩ rfl, h.2.2⟩

/-! ## C10 -/

theorem execute_sell_price (p : Portfolio) (d : TradingDecision) (praw : ℚ)
    (pos : Position) (hl : p.positions.lookup d.market_ticker = some pos) :
    (execute_sell p d praw).2.price = clampPrice praw := by
  simp only [execute_sell, hl]
  split_ifs <;> rfl

theorem clampPrice_int_range {q : ℚ} (hz : ∃ z : ℤ, q = (z : ℚ)) :
    1 ≤ clampPrice q ∧ clampPrice q ≤ 100 := by
  obtain ⟨z, rfl⟩ := hz
  simp only [clampPrice]
  by_cases h1 : (z : ℚ) ≤ 0
  · rw [if_pos h1]
    norm_num
  · rw [if_neg h1]
    have hz1 : (1 : ℚ) ≤ (z : ℚ) := by
      have : (0 : ℤ) < z := by exact_mod_cast not_le.mp h1
      exact_mod_cast this
    by_cases h2 : (100 : ℚ) < (z : ℚ)
    · rw [if_pos h2]
      norm_num
    · rw [if_neg h2]
      exact ⟨hz1, not_lt.mp h2⟩

/-- C10: every non-hold decision that reaches execution (for sells: some
position exists in the ticker) uses the clamped price
`clampPrice (raw_price ...)`, which is strictly positive for any raw
price; when the market's bid and ask are integers (as parsed candlestick
prices are) the price lies in `[1, 100]`; and at any positive price the
affordability computation divides by that positive price
(`max(0, int(bankroll * maxPct / price))`, never by zero or a negative
number). -/
theorem execution_price_clamped (maxPct : ℚ) (p : Portfolio)
    (d : TradingDecision) (s : MarketState)
    (hact : d.action ≠ Action.hold)
    (hpos : (d.action = Action.sell_yes ∨ d.action = Action.sell_no) →
      (p.positions.lookup d.market_ticker).isSome = true) :
    (execute_decision maxPct p d s).2.price =
      clampPrice (raw_price d.action s) ∧
    0 < (execute_decision maxPct p d s).2.price ∧
    ((∃ z : ℤ, s.current_yes_bid = (z : ℚ)) →
      (∃ z : ℤ, s.current_yes_ask = (z : ℚ)) →
      1 ≤ (execute_decision maxPct p d s).2.price ∧
      (execute_decision maxPct p d s).2.price ≤ 100) ∧
    (∀ q : Portfolio, ∀ pr : ℚ, 0 < pr →
      calculate_max_quantity maxPct q pr =
        max 0 (pyInt (q.bankroll * maxPct / pr))) := by
  have hmax : ∀ q : Portfolio, ∀ pr : ℚ, 0 < pr →
      calculate_max_quantity maxPct q pr =
        max 0 (pyInt (q.bankroll * maxPct / pr)) := by
    intro q pr hpr
    simp only [calculate_max_quantity, if_neg (not_le.mpr hpr)]
  have hint : ∀ praw : ℚ, (∃ z : ℤ, praw = (z : ℚ)) →
      ∀ x : ℚ, x = clampPrice praw → 1 ≤ x ∧ x ≤ 100 := by
    intro praw hz x hx
    rw [hx]
    exact clampPrice_int_range hz
  cases ha : d.action with
  | hold => exact absurd ha hact
  | buy_yes =>
      simp only [execute_decision, ha]
      rw [execute_buy_price]
      refine ⟨rfl, clampPrice_pos _, fun _ hask => ?_, hmax⟩
      exact hint _ hask _ rfl
  | buy_no =>
      simp only [execute_decision, ha]
      rw [execute_buy_price]
      refine ⟨rfl, clampPrice_pos _, fun hbid _ => ?_, hmax⟩
      refine hint _ ?_ _ rfl
      obtain ⟨z, hzz⟩ := hbid
      exact ⟨100 - z, by rw [hzz]; push_cast; ring⟩
  | sell_yes =>
      obtain ⟨pos, hl⟩ := Option.isSome_iff_exists.mp (hpos (Or.inl ha))
      simp only [execute_decision, ha]
      rw [execute_sell_price { p with decisions := p.decisions ++ [d] } d
        s.current_yes_bid pos hl]
      refine ⟨rfl, clampPrice_pos _, fun hbid _ => ?_, hmax⟩
      exact hint _ hbid _ rfl
  | sell_no =>
      obtain ⟨pos, hl⟩ := Option.isSome_iff_exists.mp (hpos (Or.inr ha))
      simp only [execute_decision, ha]
      rw [execute_sell_price { p with decisions := p.decisions ++ [d] } d
        (100 - s.current_yes_ask) pos hl]
      refine ⟨rfl, clampPrice_pos _, fun _ hask => ?_, hmax⟩
      refine hint _ ?_ _ rfl
      obtain ⟨z, hzz⟩ := hask
      exact ⟨100 - z, by rw [hzz]; push_cast; ring⟩

/-- C10 witness: concrete buy at integer prices, price in `[1, 100]` and
positive, division guard intact. -/
theorem execution_price_clamped_witness :
    ((egDecision Action.buy_yes 10).action ≠ Action.hold) ∧
    ((execute_decision (1/10) (egPortfolio 1000 [])
        (egDecision Action.buy_yes 10) (egState 30 40)).2.price =
      clampPrice (raw_price (egDecision Action.buy_yes 10).action (egState 30 40)) ∧
      0 < (execute_decision (1/10) (egPortfolio 1000 [])
        (egDecision Action.buy_yes 10) (egState 30 40)).2.price ∧
      ((∃ z : ℤ, (egState 30 40).current_yes_bid = (z : ℚ)) →
        (∃ z : ℤ, (egState 30 40).current_yes_ask = (z : ℚ)) →
        1 ≤ (execute_decision (1/10) (egPortfolio 1000 [])
          (egDecision Action.buy_yes 10) (egState 30 40)).2.price ∧
        (execute_decision (1/10) (egPortfolio 1000 [])
          (egDecision Action.buy_yes 10) (egState 30 40)).2.price ≤ 100) ∧
      (∀ q : Portfolio, ∀ pr : ℚ, 0 < pr →
        calculate_max_quantity (1/10) q pr =
          max 0 (pyInt (q.bankroll * (1/10) / pr)))) := by
  refine ⟨by decide, ?_⟩
  exact execution_price_clamped (1/10) (egPortfolio 1000 [])
    (egDecision Action.buy_yes 10) (egState 30 40) (by decide)
    (fun h => absurd h (by decide))

/-! ## C5 and C6 -/

/-- C5 counterexample: the code truncates (`int(...)`) the intermediate
index `i * (N-1)/(k-1)` instead of rounding it.  For `N = 5`, `k = 4` the
code returns `[0, 1, 2, 4]` (since `int(2 * 4/3) = 2`) while the claimed
`round` formula gives `[0, 1, 3, 4]` (since `round(8/3) = 3`). -/
theorem decision_point_round_counterexample :
    decision_point_indices 5 4 = [0, 1, 2, 4] ∧
    [0] ++ ((List.range' 1 2).map
      (fun (i : ℕ) => (round ((i:ℚ) * (((5:ℚ) - 1) / ((4:ℚ) - 1)))).toNat)) ++
      [4] = [0, 1, 3, 4] ∧
    ([0, 1, 2, 4] : List ℕ) ≠ [0, 1, 3, 4] := by
  refine ⟨?_, ?_, by decide⟩
  · norm_num [decision_point_indices, pyInt, List.range']
    all_goals decide
  · norm_num [List.range', round_eq]
    all_goals decide

theorem dpi_all_of_le (N k : ℕ) (hc : N ≤ k) :
    decision_point_indices N k = List.range N := by
  rw [decision_point_indices, if_pos hc]

theorem dpi_floor_of_lt (N k : ℕ) (hk2 : 2 < k) (hkN : k < N) :
    decision_point_indices N k =
      [0] ++ ((List.range' 1 (k - 2)).map
        (fun (i : ℕ) => (⌊(i:ℚ) * (((N:ℚ) - 1) / ((k:ℚ) - 1))⌋).toNat)) ++
        [N - 1] := by
  have hc : ¬ N ≤ k := not_le.mpr hkN
  have hstep0 : (0:ℚ) ≤ ((N:ℚ) - 1) / ((k:ℚ) - 1) := by
    apply div_nonneg
    · have : (1:ℚ) ≤ (N:ℚ) := by exact_mod_cast Nat.one_le_iff_ne_zero.mpr (by omega)
      linarith
    · have : (1:ℚ) ≤ (k:ℚ) := by exact_mod_cast Nat.one_le_iff_ne_zero.mpr (by omega)
      linarith
  simp only [decision_point_indices]
  rw [if_neg hc]
  congr 1
  congr 1
  apply List.map_congr_left
  intro a _
  have ha0 : (0:ℚ) ≤ (a:ℚ) * (((N:ℚ) - 1) / ((k:ℚ) - 1)) :=
    mul_nonneg (Nat.cast_nonneg a) hstep0
  rw [pyInt_of_nonneg ha0]

/-- C5 (amended): when `k ≥ N` every index `0..N-1` is returned; when
`2 < k < N` the indices are `0`, then `floor(i * (N-1)/(k-1))`
(truncation, not rounding) for `i = 1..k-2`, then `N-1`. -/
theorem decision_point_indices_spec (N k : ℕ) :
    (N ≤ k → decision_point_indices N k = List.range N) ∧
    (2 < k → k < N →
      decision_point_indices N k =
        [0] ++ ((List.range' 1 (k - 2)).map
          (fun (i : ℕ) => (⌊(i:ℚ) * (((N:ℚ) - 1) / ((k:ℚ) - 1))⌋).toNat)) ++
          [N - 1]) :=
  ⟨fun hc => dpi_all_of_le N k hc, fun h1 h2 => dpi_floor_of_lt N k h1 h2⟩

/-- C5 witness: both branches of the amended sampling rule at concrete
sizes. -/
theorem decision_point_indices_spec_witness :
    (3 ≤ 5 ∧ decision_point_indices 3 5 = List.range 3) ∧
    (2 < 3 ∧ 3 < 10 ∧ decision_point_indices 10 3 =
      [0] ++ ((List.range' 1 (3 - 2)).map
        (fun (i : ℕ) => (⌊(i:ℚ) * (((10:ℚ) - 1) / ((3:ℚ) - 1))⌋).toNat)) ++
        [10 - 1]) :=
  ⟨⟨by norm_num, (decision_point_indices_spec 3 5).1 (by norm_num)⟩,
   ⟨by norm_num, by norm_num,
    (decision_point_indices_spec 10 3).2 (by norm_num) (by norm_num)⟩⟩

/-- C6: for `2 ≤ k ≤ N` the index sequence has exactly `min k N`
elements, is strictly increasing, and contains `0` and `N-1`; the
decision-point list of a market with `N` candlesticks has `min k N`
entries; and a market with 3 candlesticks asked for 5 decision points
yields exactly the states at indices 0, 1, 2. -/
theorem decision_point_indices_shape (N k : ℕ) (h2 : 2 ≤ k) (hkN : k ≤ N) :
    (decision_point_indices N k).length = min k N ∧
    List.Sorted (· < ·) (decision_point_indices N k) ∧
    0 ∈ decision_point_indices N k ∧
    (N - 1) ∈ decision_point_indices N k ∧
    (∀ m : ResolvedMarket, m.price_history.length = N →
      (get_decision_points m k).length = min k N) ∧
    (∀ m : ResolvedMarket, m.price_history.length = 3 →
      get_decision_points m 5 =
        [get_market_state_at_timestep m 0, get_market_state_at_timestep m 1,
          get_market_state_at_timestep m 2]) := by
  have hscenario : ∀ m : ResolvedMarket, m.price_history.length = 3 →
      get_decision_points m 5 =
        [get_market_state_at_timestep m 0, get_market_state_at_timestep m 1,
          get_market_state_at_timestep m 2] := by
    intro m hm
    have hne : ¬ (m.price_history = []) := by
      intro h
      rw [h] at hm
      simp at hm
    rw [get_decision_points, if_neg hne, hm]
    rw [decision_point_indices, if_pos (by norm_num)]
    rfl
  have hmain : (decision_point_indices N k).length = min k N ∧
      List.Sorted (· < ·) (decision_point_indices N k) ∧
      0 ∈ decision_point_indices N k ∧
      (N - 1) ∈ decision_point_indices N k := by
    by_cases hc : N ≤ k
    · rw [decision_point_indices, if_pos hc]
      refine ⟨?_, List.sorted_lt_range N, ?_, ?_⟩
      · simp only [List.length_range]
        omega
      · exact List.mem_range.mpr (by omega)
      · exact List.mem_range.mpr (by omega)
    · have hkN2 : k < N := not_le.mp hc
      by_cases hk2 : 2 < k
      · rw [dpi_floor_of_lt N k hk2 hkN2]
        have hk1 : (0:ℚ) < (k:ℚ) - 1 := by
          have : (2:ℚ) ≤ (k:ℚ) := by exact_mod_cast h2
          linarith
        have hN1 : (0:ℚ) < (N:ℚ) - 1 := by
          have : (3:ℚ) ≤ (N:ℚ) := by exact_mod_cast (by omega : 3 ≤ N)
          linarith
        set step : ℚ := ((N:ℚ) - 1) / ((k:ℚ) - 1) with hstepdef
        have hstep1 : 1 ≤ step := by
          rw [hstepdef, le_div_iff₀ hk1]
          have : (k:ℚ) ≤ (N:ℚ) := by exact_mod_cast hkN
          linarith
        have hstep0 : (0:ℚ) ≤ step := by linarith
        have hfloor_nonneg : ∀ a : ℕ, 0 ≤ ⌊(a:ℚ) * step⌋ :=
          fun a => Int.floor_nonneg.mpr (mul_nonneg (Nat.cast_nonneg a) hstep0)
        have hfloor_mono : ∀ a b : ℕ, a < b →
            ⌊(a:ℚ) * step⌋ < ⌊(b:ℚ) * step⌋ := by
          intro a b hab
          have hba : (1:ℚ) ≤ (b:ℚ) - (a:ℚ) := by
            have : ((a:ℚ) + 1) ≤ (b:ℚ) := by exact_mod_cast hab
            linarith
          have hmul : (1:ℚ) * 1 ≤ ((b:ℚ) - (a:ℚ)) * step :=
            mul_le_mul hba hstep1 (by norm_num) (by linarith)
          have h1 : (a:ℚ) * step + 1 ≤ (b:ℚ) * step := by nlinarith
          calc ⌊(a:ℚ) * step⌋ < ⌊(a:ℚ) * step⌋ + 1 := by omega
            _ = ⌊(a:ℚ) * step + 1⌋ := (Int.floor_add_one _).symm
            _ ≤ ⌊(b:ℚ) * step⌋ := Int.floor_mono h1
        have hfloor_ge1 : ∀ a : ℕ, 1 ≤ a → 1 ≤ ⌊(a:ℚ) * step⌋ := by
          intro a ha
          apply Int.le_floor.mpr
          have ha' : (1:ℚ) ≤ (a:ℚ) := by exact_mod_cast ha
          push_cast
          nlinarith
        have hfloor_le : ∀ a : ℕ, a ≤ k - 2 → ⌊(a:ℚ) * step⌋ ≤ (N:ℤ) - 2 := by
          intro a ha
          have ha' : (a:ℚ) ≤ (k:ℚ) - 2 := by
            have h1 : ((a:ℕ):ℚ) ≤ ((k - 2 : ℕ):ℚ) := by exact_mod_cast ha
            have h2' : ((k - 2 : ℕ):ℚ) = (k:ℚ) - 2 := by
              have : (2:ℕ) ≤ k := h2
              push_cast [this]
              ring
            linarith [h1, h2'.le, h2'.ge]
          have hlt : (a:ℚ) * step < (N:ℚ) - 1 := by
            rw [hstepdef, mul_div_assoc']
            rw [div_lt_iff₀ hk1]
            have hgap : (1:ℚ) ≤ (k:ℚ) - 1 - (a:ℚ) := by linarith
            nlinarith
          have hfl : ⌊(a:ℚ) * step⌋ < (N:ℤ) - 1 :=
            Int.floor_lt.mpr (by push_cast; exact hlt)
          omega
        have himp : ∀ a b : ℕ, a < b →
            (⌊(a:ℚ) * step⌋).toNat < (⌊(b:ℚ) * step⌋).toNat := by
          intro a b hab
          have h1 := hfloor_mono a b hab
          have h0 := hfloor_nonneg a
          omega
        refine ⟨?_, ?_, ?_, ?_⟩
        · simp only [List.length_append, List.length_map, List.length_range',
            List.length_cons, List.length_nil]
          omega
        · rw [List.Sorted, List.pairwise_append]
          refine ⟨?_, ?_, ?_⟩
          · rw [List.pairwise_append]
            refine ⟨List.pairwise_singleton _ _, ?_, ?_⟩
            · exact List.pairwise_map.mpr
                ((List.pairwise_lt_range' 1 (k - 2) 1 (by norm_num)).imp
                  (fun hab => himp _ _ hab))
            · intro a ha b hb
              simp only [List.mem_singleton] at ha
              subst ha
              obtain ⟨i, hi, rfl⟩ := List.mem_map.mp hb
              have hi1 : 1 ≤ i := (List.mem_range'_1.mp hi).1
              have := hfloor_ge1 i hi1
              omega
          · exact List.pairwise_singleton _ _
          · intro a ha b hb
            simp only [List.mem_singleton] at hb
            subst hb
            rcases List.mem_append.mp ha with h0 | hmem
            · simp only [List.mem_singleton] at h0
              subst h0
              omega
            · obtain ⟨i, hi, rfl⟩ := List.mem_map.mp hmem
              have hile : i ≤ k - 2 := by
                have := (List.mem_range'_1.mp hi).2
                omega
              have := hfloor_le i hile
              omega
        · simp
        · simp
      · -- k = 2 exactly
        have hk2' : k = 2 := by omega
        subst hk2'
        simp only [decision_point_indices]
        rw [if_neg hc]
        simp only [Nat.sub_self, List.range'_zero, List.map_nil,
          List.append_nil, List.singleton_append]
        refine ⟨?_, ?_, by simp, by simp⟩
        · simp only [List.length_cons, List.length_singleton, List.length_nil]
          omega
        · rw [List.Sorted]
          refine List.pairwise_cons.mpr ⟨?_, List.pairwise_singleton _ _⟩
          intro b hb
          simp only [List.mem_singleton] at hb
          subst hb
          omega
  obtain ⟨hl, hs, h0, hN⟩ := hmain
  refine ⟨hl, hs, h0, hN, ?_, hscenario⟩
  intro m hm
  have hne : ¬ (m.price_history = []) := by
    intro h
    rw [h] at hm
    simp at hm
    omega
  rw [get_decision_points, if_neg hne, List.length_map, hm]
  exact hl

/-- C6 witness: `N = 10`, `k = 4`. -/
theorem decision_point_indices_shape_witness :
    (2 ≤ 4 ∧ 4 ≤ 10) ∧
    (decision_point_indices 10 4).length = min 4 10 ∧
    List.Sorted (· < ·) (decision_point_indices 10 4) ∧
    0 ∈ decision_point_indices 10 4 ∧
    (10 - 1) ∈ decision_point_indices 10 4 := by
  have h := decision_point_indices_shape 10 4 (by norm_num) (by norm_num)
  exact ⟨⟨by norm_num, by norm_num⟩, h.1, h.2.1, h.2.2.1, h.2.2.2.1⟩

/-! ## C4 -/

/-- C4: the `MarketState` built for decision index `i` is a function of
candlesticks `[0..i]` only: its visible history is exactly the parsed
prefix `[0..i]`, bid/ask/last-price/timestamp/open-interest come from
candlestick `i`, volume is the sum of the prefix's per-bucket volumes,
and appending any candlesticks after index `i` leaves the state
unchanged. -/
theorem market_state_prefix_only (m : ResolvedMarket) (i : ℕ)
    (hi : i < m.price_history.length) :
    (get_market_state_at_timestep m i).price_history =
      (m.price_history.take (i + 1)).map parse_candlestick ∧
    (get_market_state_at_timestep m i).current_yes_bid =
      (parse_candlestick (m.price_history.get ⟨i, hi⟩)).yes_bid ∧
    (get_market_state_at_timestep m i).current_yes_ask =
      (parse_candlestick (m.price_history.get ⟨i, hi⟩)).yes_ask ∧
    (get_market_state_at_timestep m i).current_price =
      (parse_candlestick (m.price_history.get ⟨i, hi⟩)).price_close ∧
    (get_market_state_at_timestep m i).current_timestamp =
      (parse_candlestick (m.price_history.get ⟨i, hi⟩)).timestamp ∧
    (get_market_state_at_timestep m i).open_interest =
      (parse_candlestick (m.price_history.get ⟨i, hi⟩)).open_interest ∧
    (get_market_state_at_timestep m i).volume =
      ((m.price_history.take (i + 1)).map
        (fun c => (parse_candlestick c).volume)).sum ∧
    ∀ rest : List RawCandle,
      get_market_state_at_timestep
        { m with price_history := m.price_history.take (i + 1) ++ rest } i =
        get_market_state_at_timestep m i := by
  have hlen : (m.price_history.take (i + 1)).length = i + 1 := by
    rw [List.length_take]
    omega
  have hlast : ((m.price_history.take (i + 1)).map parse_candlestick).getLast? =
      some (parse_candlestick (m.price_history.get ⟨i, hi⟩)) := by
    rw [List.getLast?_map, List.getLast?_eq_getElem?, hlen]
    simp only [Nat.add_sub_cancel]
    rw [List.getElem?_take_of_lt (by omega), List.getElem?_eq_getElem hi]
    rfl
  refine ⟨?_, ?_, ?_, ?_, ?_, ?_, ?_, ?_⟩
  · simp only [get_market_state_at_timestep]
  · simp only [get_market_state_at_timestep, hlast]
  · simp only [get_market_state_at_timestep, hlast]
  · simp only [get_market_state_at_timestep, hlast]
  · simp only [get_market_state_at_timestep, hlast]
  · simp only [get_market_state_at_timestep, hlast]
  · simp only [get_market_state_at_timestep, List.map_map]
    rfl
  · intro rest
    have ht : ((m.price_history.take (i + 1)) ++ rest).take (i + 1) =
        m.price_history.take (i + 1) := List.take_left' hlen
    simp only [get_market_state_at_timestep, ht]

/-- C4 witness: a market with three raw candlesticks at index 1. -/
theorem market_state_prefix_only_witness :
    (1 < (⟨"T", "t", "r", none, "o", "c", "yes",
        [⟨some 1, none, some 11, some 10, some 12, none, none, none, some 5, some 100⟩,
         ⟨some 2, none, some 21, some 20, some 22, none, none, none, some 7, some 200⟩,
         ⟨some 3, none, some 31, some 30, some 32, none, none, none, some 9, some 300⟩]⟩ :
        ResolvedMarket).price_history.length) ∧
    ((get_market_state_at_timestep (⟨"T", "t", "r", none, "o", "c", "yes",
        [⟨some 1, none, some 11, some 10, some 12, none, none, none, some 5, some 100⟩,
         ⟨some 2, none, some 21, some 20, some 22, none, none, none, some 7, some 200⟩,
         ⟨some 3, none, some 31, some 30, some 32, none, none, none, some 9, some 300⟩]⟩ :
        ResolvedMarket) 1).current_yes_bid =
      (parse_candlestick ((⟨"T", "t", "r", none, "o", "c", "yes",
        [⟨some 1, none, some 11, some 10, some 12, none, none, none, some 5, some 100⟩,
         ⟨some 2, none, some 21, some 20, some 22, none, none, none, some 7, some 200⟩,
         ⟨some 3, none, some 31, some 30, some 32, none, none, none, some 9, some 300⟩]⟩ :
        ResolvedMarket).price_history.get ⟨1, by decide⟩)).yes_bid) := by
  refine ⟨by decide, ?_⟩
  exact (market_state_prefix_only _ 1 (by decide)).2.1

/-- C8 counterexample: with snapshot totals `[100, 200, 400]` the returns
are `[1, 1]`, so the volatility (sample standard deviation) is zero, yet
the code substitutes `0.001` for the standard deviation and returns
`8760 / (0.001 * sqrt 8760) > 0` rather than the claimed `0`. -/
theorem sharpe_zero_volatility_counterexample :
    sample_variance (period_returns (egHistoryPortfolio [100, 200, 400])) = 0 ∧
    calculate_sharpe_ratio (egHistoryPortfolio [100, 200, 400]) 0 ≠ 0 := by
  have hpr : period_returns (egHistoryPortfolio [100, 200, 400]) = [1, 1] := by
    norm_num [period_returns, egHistoryPortfolio, List.zip, List.zipWith,
      List.filterMap]
  have hvar : sample_variance (period_returns (egHistoryPortfolio [100, 200, 400])) = 0 := by
    rw [hpr]
    norm_num [sample_variance, mean_list]
  refine ⟨hvar, ?_⟩
  have hlen : ¬ ((egHistoryPortfolio [100, 200, 400]).pnl_history.length < 2) := by
    norm_num [egHistoryPortfolio]
  have hne : ¬ (period_returns (egHistoryPortfolio [100, 200, 400]) = []) := by
    rw [hpr]
    simp
  have hlen2 : ¬ ((period_returns (egHistoryPortfolio [100, 200, 400])).length < 2) := by
    rw [hpr]
    norm_num
  have hvpos : ¬ (0 < sample_variance (period_returns (egHistoryPortfolio [100, 200, 400]))) := by
    rw [hvar]
    exact lt_irrefl 0
  have hmean : mean_list (period_returns (egHistoryPortfolio [100, 200, 400])) = 1 := by
    rw [hpr]
    norm_num [mean_list]
  have hsq : (0:ℝ) < Real.sqrt 8760 := Real.sqrt_pos.mpr (by norm_num)
  have hstd : ((1/1000 : ℝ) * Real.sqrt 8760) ≠ 0 := by positivity
  rw [calculate_sharpe_ratio]
  rw [if_neg hlen]
  simp only [if_neg hne, if_neg hlen2, if_neg hvpos, if_neg hstd, hmean]
  have : (0:ℝ) < (((1:ℚ) : ℝ) * 8760 - 0) / ((1/1000 : ℝ) * Real.sqrt 8760) := by
    apply div_pos
    · norm_num
    · positivity
  exact ne_of_gt this

/-- C8 (amended): the Sharpe ratio is `0` when fewer than two snapshots
or fewer than two returns exist; when the sample variance of the returns
is positive it equals `(mean * 8760 - rf) / (sqrt(variance) *
sqrt(8760))`; but when the variance is zero (zero volatility) with at
least two returns, the standard deviation is replaced by `0.001`, giving
`(mean * 8760 - rf) / (0.001 * sqrt(8760))` — not `0`. -/
theorem sharpe_ratio_spec (p : Portfolio) (rf : ℝ) :
    (p.pnl_history.length < 2 → calculate_sharpe_ratio p rf = 0) ∧
    ((period_returns p).length < 2 → calculate_sharpe_ratio p rf = 0) ∧
    (2 ≤ p.pnl_history.length → 2 ≤ (period_returns p).length →
      0 < sample_variance (period_returns p) →
      calculate_sharpe_ratio p rf =
        (((mean_list (period_returns p) : ℚ) : ℝ) * 8760 - rf) /
          (Real.sqrt ((sample_variance (period_returns p) : ℚ) : ℝ) *
            Real.sqrt 8760)) ∧
    (2 ≤ p.pnl_history.length → 2 ≤ (period_returns p).length →
      sample_variance (period_returns p) ≤ 0 →
      calculate_sharpe_ratio p rf =
        (((mean_list (period_returns p) : ℚ) : ℝ) * 8760 - rf) /
          ((1/1000 : ℝ) * Real.sqrt 8760)) := by
  have hsq : (0:ℝ) < Real.sqrt 8760 := Real.sqrt_pos.mpr (by norm_num)
  refine ⟨?_, ?_, ?_, ?_⟩
  · intro h
    rw [calculate_sharpe_ratio, if_pos h]
  · intro h
    rw [calculate_sharpe_ratio]
    by_cases h1 : p.pnl_history.length < 2
    · rw [if_pos h1]
    · rw [if_neg h1]
      by_cases h2 : period_returns p = []
      · simp only [if_pos h2]
      · simp only [if_neg h2, if_pos h]
  · intro h1 h2 hv
    rw [calculate_sharpe_ratio, if_neg (not_lt.mpr h1)]
    have hne : ¬ (period_returns p = []) := by
      intro h
      rw [h] at h2
      simp at h2
    have hstd : Real.sqrt ((sample_variance (period_returns p) : ℚ) : ℝ) *
        Real.sqrt 8760 ≠ 0 := by
      have : (0:ℝ) < ((sample_variance (period_returns p) : ℚ) : ℝ) := by
        exact_mod_cast hv
      positivity
    simp only [if_neg hne, if_neg (not_lt.mpr h2), if_pos hv, if_neg hstd]
  · intro h1 h2 hv
    rw [calculate_sharpe_ratio, if_neg (not_lt.mpr h1)]
    have hne : ¬ (period_returns p = []) := by
      intro h
      rw [h] at h2
      simp at h2
    have hstd : (1/1000 : ℝ) * Real.sqrt 8760 ≠ 0 := by positivity
    simp only [if_neg hne, if_neg (not_lt.mpr h2),
      if_neg (not_lt.mpr hv), if_neg hstd]

/-- C8 witness: the zero branch at an empty history and the main formula
at snapshot totals `[100, 200, 300]` (returns `[1, 1/2]`, sample
variance `1/8 > 0`). -/
theorem sharpe_ratio_spec_witness :
    ((egHistoryPortfolio []).pnl_history.length < 2 ∧
      calculate_sharpe_ratio (egHistoryPortfolio []) 0 = 0) ∧
    (2 ≤ (egHistoryPortfolio [100, 200, 300]).pnl_history.length ∧
      2 ≤ (period_returns (egHistoryPortfolio [100, 200, 300])).length ∧
      0 < sample_variance (period_returns (egHistoryPortfolio [100, 200, 300])) ∧
      calculate_sharpe_ratio (egHistoryPortfolio [100, 200, 300]) 0 =
        (((mean_list (period_returns (egHistoryPortfolio [100, 200, 300])) : ℚ) : ℝ) *
            8760 - 0) /
          (Real.sqrt ((sample_variance
              (period_returns (egHistoryPortfolio [100, 200, 300])) : ℚ) : ℝ) *
            Real.sqrt 8760)) := by
  have hpr : period_returns (egHistoryPortfolio [100, 200, 300]) = [1, 1/2] := by
    norm_num [period_returns, egHistoryPortfolio, List.zip, List.zipWith,
      List.filterMap]
  have hlen : 2 ≤ (egHistoryPortfolio [100, 200, 300]).pnl_history.length := by
    norm_num [egHistoryPortfolio]
  have hlen2 : 2 ≤ (period_returns (egHistoryPortfolio [100, 200, 300])).length := by
    rw [hpr]
    norm_num
  have hv : 0 < sample_variance (period_returns (egHistoryPortfolio [100, 200, 300])) := by
    rw [hpr]
    norm_num [sample_variance, mean_list]
  constructor
  · have h0 : (egHistoryPortfolio []).pnl_history.length < 2 := by
      norm_num [egHistoryPortfolio]
    exact ⟨h0, (sharpe_ratio_spec (egHistoryPortfolio []) 0).1 h0⟩
  · exact ⟨hlen, hlen2, hv,
      (sharpe_ratio_spec (egHistoryPortfolio [100, 200, 300]) 0).2.2.1 hlen hlen2 hv⟩

/-- C7 counterexample: the third fallback is not "the first
balanced-brace substring".  On the response `{"a": 1} }` the code's
greedy first-`{`-to-last-`}` span is `{"a": 1} }`, which is not JSON, so
the whole pipeline returns a parse failure — while the spec's
first-balanced-brace strategy extracts `{"a": 1}` and parses it
successfully. -/
theorem parse_balanced_brace_counterexample :
    parse_json_response "\x7b\"a\": 1\x7d \x7d" = none ∧
    ((spec_first_balanced_brace "\x7b\"a\": 1\x7d \x7d").bind jsonParse).isSome
      = true := by
  constructor
  · exact Option.isNone_iff_eq_none.mp (by decide)
  · decide

/-- C7 (amended): response parsing is the ordered fallback
(1) whole-response JSON parse, (2) ```json fenced block, (3) any fenced
block, (4) the greedy first-`{`-to-last-`}` substring (not the first
balanced-brace substring); each stage is consulted only when every
earlier stage failed, and total failure yields a typed `DecisionResult`
carrying the raw text and a reason — as on `"not json at all"`, where no
trade executes and the portfolio (hence its decision history) is
unchanged. -/
theorem parse_fallback_spec :
    (∀ r : String, (jsonParse r).isSome = true →
      parse_json_response r = jsonParse r) ∧
    (∀ r : String, jsonParse r = none →
      ((extract_fenced_json r).bind jsonParse).isSome = true →
      parse_json_response r = (extract_fenced_json r).bind jsonParse) ∧
    (∀ r : String, jsonParse r = none →
      (extract_fenced_json r).bind jsonParse = none →
      ((extract_fenced r).bind jsonParse).isSome = true →
      parse_json_response r = (extract_fenced r).bind jsonParse) ∧
    (∀ r : String, jsonParse r = none →
      (extract_fenced_json r).bind jsonParse = none →
      (extract_fenced r).bind jsonParse = none →
      parse_json_response r = (extract_brace_span r).bind jsonParse) ∧
    parse_json_response "not json at all" = none ∧
    (parse_decision "not json at all" "m" "T" 0).success = false ∧
    (parse_decision "not json at all" "m" "T" 0).decision = none ∧
    (parse_decision "not json at all" "m" "T" 0).raw_response =
      "not json at all" ∧
    (parse_decision "not json at all" "m" "T" 0).error =
      some "Failed to parse JSON from response" ∧
    (apply_oracle_response (1/10) (egPortfolio 1000 []) (egState 30 40) "m"
      "not json at all").1 = egPortfolio 1000 [] ∧
    (apply_oracle_response (1/10) (egPortfolio 1000 []) (egState 30 40) "m"
      "not json at all").2 = none := by
  refine ⟨?_, ?_, ?_, ?_, Option.isNone_iff_eq_none.mp (by decide), by decide,
    by decide, by decide, by decide, by decide, by decide⟩
  · intro r h
    obtain ⟨v, hv⟩ := Option.isSome_iff_exists.mp h
    simp only [parse_json_response, hv]
  · intro r h0 h
    obtain ⟨v, hv⟩ := Option.isSome_iff_exists.mp h
    simp only [parse_json_response, h0, hv]
  · intro r h0 h1 h
    obtain ⟨v, hv⟩ := Option.isSome_iff_exists.mp h
    simp only [parse_json_response, h0, h1, hv]
  · intro r h0 h1 h2
    simp only [parse_json_response, h0, h1, h2]

/-- C7 witness: each fallback stage fires on a concrete response. -/
theorem parse_fallback_spec_witness :
    ((jsonParse "\x7b\"a\": 1\x7d").isSome = true ∧
      parse_json_response "\x7b\"a\": 1\x7d" = jsonParse "\x7b\"a\": 1\x7d") ∧
    (jsonParse "x ```json\n\x7b\"a\": 1\x7d\n``` y" = none ∧
      ((extract_fenced_json "x ```json\n\x7b\"a\": 1\x7d\n``` y").bind
        jsonParse).isSome = true ∧
      parse_json_response "x ```json\n\x7b\"a\": 1\x7d\n``` y" =
        (extract_fenced_json "x ```json\n\x7b\"a\": 1\x7d\n``` y").bind
          jsonParse) ∧
    (jsonParse "not json at all" = none ∧
      (extract_fenced_json "not json at all").bind jsonParse = none ∧
      (extract_fenced "not json at all").bind jsonParse = none ∧
      parse_json_response "not json at all" =
        (extract_brace_span "not json at all").bind jsonParse) := by
  refine ⟨⟨by decide, ?_⟩,
    ⟨Option.isNone_iff_eq_none.mp (by decide), by decide, ?_⟩,
    ⟨Option.isNone_iff_eq_none.mp (by decide),
      Option.isNone_iff_eq_none.mp (by decide),
      Option.isNone_iff_eq_none.mp (by decide), ?_⟩⟩
  · exact parse_fallback_spec.1 "\x7b\"a\": 1\x7d" (by decide)
  · exact parse_fallback_spec.2.1 "x ```json\n\x7b\"a\": 1\x7d\n``` y"
      (Option.isNone_iff_eq_none.mp (by decide)) (by decide)
  · exact parse_fallback_spec.2.2.2.1 "not json at all"
      (Option.isNone_iff_eq_none.mp (by decide))
      (Option.isNone_iff_eq_none.mp (by decide))
      (Option.isNone_iff_eq_none.mp (by decide))

/-- C9: with a deterministic oracle stub, the simulation outcome is a
pure function of the market data and the oracle: two runs with oracles
that answer every query identically produce identical final portfolio
states — in particular identical final bankrolls for every agent — and
identical rankings. -/
theorem simulation_deterministic (maxPct : ℚ) (models : List String)
    (markets : List ResolvedMarket) (num_points : ℕ) (initial_bankroll : ℚ)
    (oracle1 oracle2 : Oracle)
    (hsame : ∀ id st pf, oracle1 id st pf = oracle2 id st pf) :
    run_simulation maxPct models oracle1 markets num_points initial_bankroll =
      run_simulation maxPct models oracle2 markets num_points initial_bankroll ∧
    (∀ id, ((run_simulation maxPct models oracle1 markets num_points
        initial_bankroll).1.lookup id).map Portfolio.bankroll =
      ((run_simulation maxPct models oracle2 markets num_points
        initial_bankroll).1.lookup id).map Portfolio.bankroll) ∧
    simulation_rankings maxPct models oracle1 markets num_points
        initial_bankroll =
      simulation_rankings maxPct models oracle2 markets num_points
        initial_bankroll := by
  have h : oracle1 = oracle2 :=
    funext fun a => funext fun b => funext fun c => hsame a b c
  rw [h]
  exact ⟨rfl, fun _ => rfl, rfl⟩

/-- C9 witness: a concrete constant oracle on one empty market list. -/
theorem simulation_deterministic_witness :
    (∀ id st pf, (fun (_ : String) (_ : MarketState) (_ : Portfolio) =>
        "hold") id st pf =
      (fun (_ : String) (_ : MarketState) (_ : Portfolio) => "hold") id st pf) ∧
    run_simulation (1/10) ["m"]
        (fun _ _ _ => "hold") [] 3 10000 =
      run_simulation (1/10) ["m"] (fun _ _ _ => "hold") [] 3 10000 ∧
    simulation_rankings (1/10) ["m"] (fun _ _ _ => "hold") [] 3 10000 =
      simulation_rankings (1/10) ["m"] (fun _ _ _ => "hold") [] 3 10000 := by
  refine ⟨fun _ _ _ => rfl, ?_, ?_⟩
  · exact (simulation_deterministic (1/10) ["m"] [] 3 10000
      (fun _ _ _ => "hold") (fun _ _ _ => "hold") (fun _ _ _ => rfl)).1
  · exact (simulation_deterministic (1/10) ["m"] [] 3 10000
      (fun _ _ _ => "hold") (fun _ _ _ => "hold") (fun _ _ _ => rfl)).2.2

end TruthBench
